import Mathlib

set_option autoImplicit false

/-!
# BackDrop: the overlay controller of `Source/BackDrop.js`

The controller is a MooTools class.  Its own code (`setup`, `attachEvents`,
`show`, `hide`, `toggle`, `resize`, `setReference`, `getReference` and the
constructor body) is embedded function by function over an explicit page
state.  The collaborators it calls are not part of the repository; they are
modelled at the level of their documented contract:

* the element tree (`appendChild`, `dispose`), including the refusal of the
  tree to put a node under itself or under one of its own descendants;
* the class attribute, as the set of class names it holds; `addClass` and
  `removeClass` take a string and work on each of the names written in it,
  separated by white space;
* the `width` / `height` styles written by `setStyles`;
* the morph target used on the legacy path (only the selector the element was
  last set or sent to is kept, not the animation);
* `document.id` and `document.body`, which are computed from the element tree
  at call time (an identifier names the first node in document order that has
  it as `id`, the body is the body element as long as it is in the document),
  and `getScrollSize`, which is read from the page at call time;
* the single storage slot of `Class.Singleton` and the listeners registered
  with `addEvent`;
* `fireEvent`, recorded as a log in which every entry keeps the page as a
  subscriber sees it at the moment it is notified.
-/

namespace BackDrop

/-! ## The page -/

abbrev NodeId := Nat

abbrev ObjId := Nat

/-- The result of `getScrollSize`. -/
structure Size where
  x : Nat
  y : Nat
deriving DecidableEq, Repr

/-- What a caller may pass where the code expects "an element or its id". -/
inductive Arg where
  | node (n : NodeId)
  | ident (s : String)
  | absent
deriving DecidableEq, Repr

/-- The two directions used as keys by `toggle` and as event names. -/
inductive Key where
  | show
  | hide
deriving DecidableEq, Repr

/-- Listeners this program registers: `this.bound('hide')` of an object. -/
inductive Listener where
  | boundHide (self : ObjId)
deriving DecidableEq, Repr

/-- Exceptions that can escape a call. -/
inductive Err where
  | typeError
  | hierarchyRequest
deriving DecidableEq, Repr

/-- White space, as the class `\s` of a regular expression sees it. -/
def isSpace (c : Char) : Bool :=
  decide (c.toNat = 9) || decide (c.toNat = 10) || decide (c.toNat = 11) ||
  decide (c.toNat = 12) || decide (c.toNat = 13) || decide (c.toNat = 32) ||
  decide (c.toNat = 160) || decide (c.toNat = 5760) ||
  (decide (8192 ≤ c.toNat) && decide (c.toNat ≤ 8202)) ||
  decide (c.toNat = 8232) || decide (c.toNat = 8233) || decide (c.toNat = 8239) ||
  decide (c.toNat = 8287) || decide (c.toNat = 12288) || decide (c.toNat = 65279)

/-- Reading a text from its end: the word the text starts with (empty when it
starts with white space) and the words after it. -/
def scan : List Char → List Char × List (List Char)
  | [] => ([], [])
  | c :: cs =>
    if isSpace c then
      ([], if (scan cs).1 = [] then (scan cs).2 else (scan cs).1 :: (scan cs).2)
    else (c :: (scan cs).1, (scan cs).2)

/-- The words of a text: its maximal runs of characters other than white space. -/
def words (cs : List Char) : List (List Char) :=
  if (scan cs).1 = [] then (scan cs).2 else (scan cs).1 :: (scan cs).2

/-- Whether a string is one class name: not empty, and without white space. -/
def isName (s : String) : Bool :=
  !s.data.isEmpty && s.data.all (fun c => !isSpace c)

/-- The class names written in a string, `className.clean().split(' ')` without
the empty ones and without repetitions. -/
def names (s : String) : Finset String :=
  ((words s.data).map String.mk).toFinset

/-- Pointwise update of a node-indexed table. -/
def upd {α : Type} (f : NodeId → α) (k : NodeId) (v : α) : NodeId → α :=
  fun n => if n = k then v else f n

/-- The document as the controller can observe and change it. -/
@[ext]
structure Dom where
  doc : NodeId
  html : NodeId
  body : NodeId
  nextNode : NodeId
  parent : NodeId → Option NodeId
  children : NodeId → List NodeId
  classes : NodeId → Finset String
  tag : NodeId → String
  attrs : NodeId → List (String × String)
  width : NodeId → Option Nat
  height : NodeId → Option Nat
  morph : NodeId → Option String
  click : NodeId → List Listener
  scroll : NodeId → Size

namespace Dom

/-- The nodes below and including `n` in document order, down to a given depth. -/
def preorder (d : Dom) : Nat → NodeId → List NodeId
  | 0, _ => []
  | k + 1, n => n :: ((d.children n).map (fun c => preorder d k c)).flatten

/-- The `id` attribute of a node. -/
def idOf (d : Dom) (n : NodeId) : Option String :=
  (d.attrs n).lookup "id"

/-- Function `document.getElementById(s)`: the first node of the document, in
document order, whose `id` is `s`.  A tree whose nodes are numbered below
`nextNode` is not deeper than `nextNode`. -/
def getElementById (d : Dom) (s : String) : Option NodeId :=
  (d.preorder (d.nextNode + 1) d.doc).find? (fun n => decide (d.idOf n = some s))

/-- Property `document.body`: the body element while it is a child of the root
element and that one a child of the document; otherwise null. -/
def documentBody (d : Dom) : Option NodeId :=
  if d.parent d.html = some d.doc ∧ d.parent d.body = some d.html then some d.body
  else none

/-- Function `document.id(x)`: a node is itself, an identifier is looked up, anything
else is null. -/
def documentId (d : Dom) : Arg → Option NodeId
  | .node n => some n
  | .ident s => d.getElementById s
  | .absent => none

/-- Constructor `new Element(tag, attributes)`: a new node, outside the tree, with
the given attributes (among them its `id` and, as `class`, its class names), no
style and no listener of this program. -/
def newElement (d : Dom) (tag : String) (attributes : List (String × String)) :
    NodeId × Dom :=
  (d.nextNode,
   { d with
     nextNode := d.nextNode + 1
     parent := upd d.parent d.nextNode none
     children := upd d.children d.nextNode []
     classes := upd d.classes d.nextNode (names ((attributes.lookup "class").getD ""))
     tag := upd d.tag d.nextNode tag
     attrs := upd d.attrs d.nextNode attributes
     width := upd d.width d.nextNode none
     height := upd d.height d.nextNode none
     morph := upd d.morph d.nextNode none
     click := upd d.click d.nextNode [] })

/-- Method `hasClass` of an element: whether the string is among its class
names.  A class attribute holds class names only, so a string that is not one
class name (the empty string, two names) is never found. -/
def hasClass (d : Dom) (n : NodeId) (c : String) : Bool :=
  isName c && decide (c ∈ d.classes n)

/-- Method `removeClass` of an element: every class name written in the string
leaves the class attribute. -/
def removeClass (d : Dom) (n : NodeId) (c : String) : Dom :=
  { d with classes := upd d.classes n (d.classes n \ names c) }

/-- Method `addClass` of an element: every class name written in the string
joins the class attribute; the empty string adds nothing. -/
def addClass (d : Dom) (n : NodeId) (c : String) : Dom :=
  { d with classes := upd d.classes n (d.classes n ∪ names c) }

/-- Method `dispose` of an element, `parentNode ? parentNode.removeChild(this) : this`. -/
def dispose (d : Dom) (n : NodeId) : Dom :=
  match d.parent n with
  | none => d
  | some p =>
    { d with
      parent := upd d.parent n none
      children := upd d.children p ((d.children p).erase n) }

/-- Walk up from `n` looking for `a`; running out of steps counts as found. -/
def climbsTo (d : Dom) (a : NodeId) : Nat → NodeId → Bool
  | 0, _ => true
  | k + 1, n =>
    if n = a then true
    else
      match d.parent n with
      | none => false
      | some p => climbsTo d a k p

/-- Whether `a` is `n` or one of the ancestors of `n`, as the element tree checks
it before an insertion.  A chain of parents in a tree whose nodes are numbered
below `nextNode` has at most `nextNode` links, so the walk is given
`nextNode + 1` steps. -/
def contains (d : Dom) (a n : NodeId) : Bool :=
  d.climbsTo a (d.nextNode + 1) n

/-- The move made by an accepted `p.appendChild(c)`: `c` leaves its parent and
becomes the last child of `p`. -/
def adopt (d : Dom) (p c : NodeId) : Dom :=
  let d1 := d.dispose c
  { d1 with
    parent := upd d1.parent c (some p)
    children := upd d1.children p (d1.children p ++ [c]) }

/-- Call `p.appendChild(c)`, which is what `c.inject(p)` does: refused when `c` is `p` or contains `p`. -/
def appendChild (d : Dom) (p c : NodeId) : Except Err Dom :=
  if d.contains c p then .error .hierarchyRequest
  else .ok (d.adopt p c)

/-- Method `setStyles({height: h, width: w})` of an element. -/
def setStyles (d : Dom) (n : NodeId) (height width : Nat) : Dom :=
  { d with
    height := upd d.height n (some height)
    width := upd d.width n (some width) }

/-- Calls `get('morph').set(selector)` and `morph(selector)`: the element is put on,
or sent towards, the style state of `selector`. -/
def morphTo (d : Dom) (n : NodeId) (selector : String) : Dom :=
  { d with morph := upd d.morph n (some selector) }

/-- Method `addEvent('click', l)` of an element: a listener is registered once. -/
def addEvent (d : Dom) (n : NodeId) (l : Listener) : Dom :=
  if l ∈ d.click n then d
  else { d with click := upd d.click n (d.click n ++ [l]) }

/-- The value of `document.id(x) || document.id(document.body)`. -/
def resolve (d : Dom) (x : Arg) : Option NodeId :=
  d.documentId x <|>
    (match d.documentBody with
     | none => none
     | some m => d.documentId (.node m))

/-- Parent links and child lists describe the same forest. -/
structure Tree (d : Dom) : Prop where
  link : ∀ c p, c ∈ d.children p ↔ d.parent c = some p
  once : ∀ p, (d.children p).Nodup

/-- Node `a` is `n` itself or one of the ancestors of `n`. -/
inductive Above (d : Dom) (a : NodeId) : NodeId → Prop where
  | self : Above d a a
  | up {n p : NodeId} : d.parent n = some p → Above d a p → Above d a n

end Dom

/-! ## Options -/

structure ElementOpts where
  tag : String
  attributes : List (String × String)
deriving DecidableEq, Repr

structure Options where
  reference : Arg
  elementOpts : ElementOpts
  hideClass : String
  showClass : String
  loadClass : String
  hideSelector : String
  showSelector : String
deriving DecidableEq, Repr

/-- The `options` member of the class. -/
def defaults : Options :=
  { reference := .absent
    elementOpts := { tag := "div", attributes := [("id", "backDrop")] }
    hideClass := "hidden"
    showClass := "visible"
    loadClass := "load"
    hideSelector := ".bd_hidden"
    showSelector := ".bd_visible" }

/-- The `options` argument of the constructor: the keys a caller overrides. -/
structure Overrides where
  reference : Option Arg
  tag : Option String
  attributes : List (String × String)
  hideClass : Option String
  showClass : Option String
  loadClass : Option String
  hideSelector : Option String
  showSelector : Option String
deriving DecidableEq, Repr

/-- An `options` argument that overrides nothing. -/
def Overrides.empty : Overrides :=
  { reference := none, tag := none, attributes := [], hideClass := none
    showClass := none, loadClass := none, hideSelector := none, showSelector := none }

/-- One key of a merged object. -/
def setKey (kv : List (String × String)) (k v : String) : List (String × String) :=
  if kv.any (fun e => decide (e.1 = k)) then
    kv.map (fun e => if e.1 = k then (k, v) else e)
  else kv ++ [(k, v)]

/-- Method `setOptions(options)`: a deep merge of the argument over the current
options; an absent argument changes nothing. -/
def setOptions (cur : Options) : Option Overrides → Options
  | none => cur
  | some o =>
    { reference := o.reference.getD cur.reference
      elementOpts :=
        { tag := o.tag.getD cur.elementOpts.tag
          attributes :=
            o.attributes.foldl (fun acc e => setKey acc e.1 e.2) cur.elementOpts.attributes }
      hideClass := o.hideClass.getD cur.hideClass
      showClass := o.showClass.getD cur.showClass
      loadClass := o.loadClass.getD cur.loadClass
      hideSelector := o.hideSelector.getD cur.hideSelector
      showSelector := o.showSelector.getD cur.showSelector }

/-- Lookup `this.options[key + 'Class']`. -/
def Options.classOf (o : Options) : Key → String
  | .show => o.showClass
  | .hide => o.hideClass

/-- Lookup `this.options[key + 'Selector']`. -/
def Options.selectorOf (o : Options) : Key → String
  | .show => o.showSelector
  | .hide => o.hideSelector

/-! ## The controller object and the world it lives in -/

/-- The members of a `BackDrop` object. -/
structure Controller where
  self : ObjId
  options : Options
  element : Option NodeId
  reference : Option NodeId
deriving DecidableEq, Repr

/-- One `fireEvent`: the name, and what a subscriber finds when it runs. -/
structure Emission where
  name : Key
  dom : Dom
  receiver : Controller

/-- Everything a call can read or change.  `isIE` is fixed when the script is
loaded; `single` is the storage slot of `Class.Singleton` for this class, and
the object in it is the receiver of every method call. -/
structure World where
  isIE : Bool
  dom : Dom
  nextObj : ObjId
  single : Option Controller
  fired : List Emission

namespace World

/-- Method `setReference(element)`. -/
def setReference (w : World) (element : Arg) : Except Err World :=
  match w.single with
  | none => .error .typeError
  | some b => .ok { w with single := some { b with reference := w.dom.resolve element } }

/-- Method `getReference()`. -/
def getReference (w : World) : Option NodeId :=
  match w.single with
  | none => none
  | some b => b.reference

/-- Method `attachEvents(element)`. -/
def attachEvents (w : World) (element : NodeId) : Except Err World :=
  match w.single with
  | none => .error .typeError
  | some b => .ok { w with dom := w.dom.addEvent element (.boundHide b.self) }

/-- Method `toggle(to, from)`, in the variant chosen by `isIE` at load time. -/
def toggle (w : World) (toKey fromKey : Key) : Except Err World :=
  match w.single with
  | none => .error .typeError
  | some b =>
    match b.element with
    | none => .error .typeError
    | some n =>
      if w.isIE then
        .ok { w with dom := w.dom.morphTo n (b.options.selectorOf toKey) }
      else
        .ok { w with
              dom := (w.dom.removeClass n (b.options.classOf fromKey)).addClass n
                        (b.options.classOf toKey) }

/-- Method `resize()`. -/
def resize (w : World) : Except Err World :=
  match w.single with
  | none => .error .typeError
  | some b =>
    match b.reference with
    | none => .error .typeError
    | some r =>
      let size := w.dom.scroll r
      match b.element with
      | none => .error .typeError
      | some n => .ok { w with dom := w.dom.setStyles n size.y size.x }

/-- Method `fireEvent(name)`: subscribers are notified, and see the page as it is. -/
def fireEvent (w : World) (name : Key) : Except Err World :=
  match w.single with
  | none => .error .typeError
  | some b => .ok { w with fired := w.fired ++ [{ name := name, dom := w.dom, receiver := b }] }

/-- Statement `this.element.inject(this.reference)`. -/
def inject (w : World) : Except Err World :=
  match w.single with
  | none => .error .typeError
  | some b =>
    match b.element with
    | none => .error .typeError
    | some n =>
      match b.reference with
      | none => .error .typeError
      | some r =>
        match w.dom.appendChild r n with
        | .error e => .error e
        | .ok d => .ok { w with dom := d }

/-- Statement `this.element.dispose()`. -/
def disposeElement (w : World) : Except Err World :=
  match w.single with
  | none => .error .typeError
  | some b =>
    match b.element with
    | none => .error .typeError
    | some n => .ok { w with dom := w.dom.dispose n }

end World

/-- Method `show()`. -/
def World.show (w : World) : Except Err World :=
  w.inject >>= fun w1 =>
  w1.resize >>= fun w2 =>
  w2.toggle .show .hide >>= fun w3 =>
  w3.fireEvent .show

namespace World

/-- Method `hide()`. -/
def hide (w : World) : Except Err World :=
  w.toggle .hide .show >>= fun w1 =>
  w1.disposeElement >>= fun w2 =>
  w2.fireEvent .hide

/-- Method `setup(element, options)`. -/
def setup (w : World) (element : Arg) (options : Option Overrides) : Except Err World :=
  match w.single with
  | none => .error .typeError
  | some b =>
    let opts := setOptions b.options options
    let made :=
      match w.dom.documentId element with
      | some n => (n, w.dom)
      | none => w.dom.newElement opts.elementOpts.tag opts.elementOpts.attributes
    let el := made.1
    let d2 := (made.2.removeClass el opts.loadClass).dispose el
    let d3 := if w.isIE then d2.morphTo el opts.hideSelector else d2
    let w1 : World :=
      { w with dom := d3, single := some { b with options := opts, element := some el } }
    w1.setReference opts.reference >>= fun w2 =>
    w2.attachEvents el

/-- Method `check()` of `Class.Singleton`: the stored object if there is one; otherwise
the receiver is stored and nothing is returned. -/
def check (w : World) (self : ObjId) : Option Controller × World :=
  match w.single with
  | some b => (some b, w)
  | none =>
    (none,
     { w with
       single := some { self := self, options := defaults, element := none, reference := none } })

/-- The constructor body, `return this.check() || this.setup(element, options)`:
the value is the stored object, or nothing after a first set-up. -/
def initialise (w : World) (self : ObjId) (element : Arg) (options : Option Overrides) :
    Except Err (Option Controller × World) :=
  match check w self with
  | (some b, w1) => .ok (some b, w1)
  | (none, w1) =>
    match w1.setup element options with
    | .error e => .error e
    | .ok w2 => .ok (none, w2)

/-- Expression `new BackDrop(element, options)`: a new object runs the constructor body; the
value of the expression is the object the body returns, or the new object when
the body returns nothing. -/
def construct (w : World) (element : Arg) (options : Option Overrides) :
    Except Err (ObjId × World) :=
  let self := w.nextObj
  match initialise { w with nextObj := self + 1 } self element options with
  | .error e => .error e
  | .ok (some b, w1) => .ok (b.self, w1)
  | .ok (none, w1) => .ok (self, w1)

/-- One listener runs. -/
def runListener (w : World) : Listener → Except Err World
  | .boundHide self =>
    match w.single with
    | none => .ok w
    | some b => if b.self = self then w.hide else .ok w

/-- The listeners of a list run one after the other. -/
def runListeners (w : World) : List Listener → Except Err World
  | [] => .ok w
  | l :: ls =>
    match w.runListener l with
    | .error e => .error e
    | .ok w1 => runListeners w1 ls

/-- A click on node `n`: the listeners registered on it run. -/
def clickOn (w : World) (n : NodeId) : Except Err World :=
  w.runListeners (w.dom.click n)

end World

/-! ## Visual state, reachable states -/

/-- The marker of the visible state on node `n`: on the modern path the show
class without the hide class, on the legacy path the show selector as morph
target. -/
def Shown (w : World) (o : Options) (n : NodeId) : Prop :=
  if w.isIE then w.dom.morph n = some o.showSelector
  else w.dom.hasClass n o.showClass = true ∧ w.dom.hasClass n o.hideClass = false

/-- The marker of the hidden state on node `n`: on the modern path the hide
class without the show class, on the legacy path the hide selector as morph
target. -/
def Hidden (w : World) (o : Options) (n : NodeId) : Prop :=
  if w.isIE then w.dom.morph n = some o.hideSelector
  else w.dom.hasClass n o.hideClass = true ∧ w.dom.hasClass n o.showClass = false

instance (w : World) (o : Options) (n : NodeId) : Decidable (Shown w o n) := by
  unfold Shown; infer_instance

instance (w : World) (o : Options) (n : NodeId) : Decidable (Hidden w o n) := by
  unfold Hidden; infer_instance

/-- The state machine of the specification: HIDDEN, or SHOWN together with the
node the overlay was put under by the `show()` that led there. -/
inductive Phase where
  | hidden
  | shown (under : NodeId)
deriving DecidableEq, Repr

/-- A page on which no controller has been built: the storage slot is empty,
the element tree is a forest, node numbers from `nextNode` on are unused, and
no listener of this program is registered. -/
structure Fresh (w : World) : Prop where
  single : w.single = none
  tree : w.dom.Tree
  blank : ∀ n, w.dom.nextNode ≤ n → w.dom.parent n = none ∧ w.dom.children n = []
  quiet : ∀ n, w.dom.click n = []

/-- The layout engine may change scroll sizes between two calls. -/
def World.relayout (w : World) (scroll : NodeId → Size) : World :=
  { w with dom := { w.dom with scroll := scroll } }

/-- States reached from a first construction on a fresh page by calls that
return, each tagged with the phase of the specification's state machine.  The
calls that can throw in such a state are `show()`, at its first statement (no
reference, or a reference the element tree refuses), and `resize()`, at its
first statement (no reference); both throw before changing anything, so calls
that throw reach no further state. -/
inductive Reachable : Phase → World → Prop where
  | first {w w' : World} {i : ObjId} (e : Arg) (o : Option Overrides) :
      Fresh w → w.construct e o = .ok (i, w') → Reachable .hidden w'
  | again {ph : Phase} {w w' : World} {i : ObjId} (e : Arg) (o : Option Overrides) :
      Reachable ph w → w.construct e o = .ok (i, w') → Reachable ph w'
  | afterShow {ph : Phase} {w w' : World} {b : Controller} {r : NodeId} :
      Reachable ph w → w.single = some b → b.reference = some r →
      World.show w = .ok w' → Reachable (.shown r) w'
  | afterHide {ph : Phase} {w w' : World} :
      Reachable ph w → w.hide = .ok w' → Reachable .hidden w'
  | afterResize {ph : Phase} {w w' : World} :
      Reachable ph w → w.resize = .ok w' → Reachable ph w'
  | afterSetReference {ph : Phase} {w w' : World} (a : Arg) :
      Reachable ph w → w.setReference a = .ok w' → Reachable ph w'
  | afterClick {ph : Phase} {w w' : World} {b : Controller} {n : NodeId} :
      Reachable ph w → w.single = some b → b.element = some n →
      w.clickOn n = .ok w' → Reachable .hidden w'
  | afterLayout {ph : Phase} {w : World} (scroll : NodeId → Size) :
      Reachable ph w → Reachable ph (w.relayout scroll)

/-- What holds of every reachable state. -/
structure Inv (ph : Phase) (w : World) (b : Controller) (n : NodeId) : Prop where
  single : w.single = some b
  element : b.element = some n
  tree : w.dom.Tree
  listeners : w.dom.click n = [.boundHide b.self]
  hidden : ph = .hidden → w.dom.parent n = none
  shown : ∀ u, ph = .shown u →
    w.dom.parent n = some u ∧
    (if w.isIE then w.dom.morph n = some b.options.showSelector
     else names b.options.showClass ⊆ w.dom.classes n)

/-- The class names after `removeClass(gone).addClass(came)`. -/
def swapClass (l : Finset String) (came gone : String) : Finset String :=
  (l \ names gone) ∪ names came

/-- The class or morph change of `toggle(to, from)` on node `n`. -/
def toggled (isIE : Bool) (o : Options) (d : Dom) (n : NodeId) (toKey fromKey : Key) : Dom :=
  if isIE then d.morphTo n (o.selectorOf toKey)
  else (d.removeClass n (o.classOf fromKey)).addClass n (o.classOf toKey)

/-- The document a `show()` that returns leaves behind, for overlay `n` and
reference `r`. -/
def showDom (w : World) (b : Controller) (n r : NodeId) : Dom :=
  toggled w.isIE b.options
    ((w.dom.adopt r n).setStyles n (w.dom.scroll r).y (w.dom.scroll r).x) n .show .hide

/-- The document `hide()` leaves behind, for overlay `n`. -/
def hideDom (w : World) (b : Controller) (n : NodeId) : Dom :=
  (toggled w.isIE b.options w.dom n .hide .show).dispose n

/-- The overlay node of a first construction, with the document once that node
exists: the node the argument resolves to, or a new one. -/
def chosen (d : Dom) (e : Arg) (opts : Options) : NodeId × Dom :=
  match d.documentId e with
  | some n => (n, d)
  | none => d.newElement opts.elementOpts.tag opts.elementOpts.attributes

/-- The document of a first construction when the reference is looked up: the
overlay has lost the load class and its parent and, on the legacy path, has
been put on the hide selector. -/
def preparedDom (isIE : Bool) (d : Dom) (e : Arg) (opts : Options) : Dom :=
  let el := (chosen d e opts).1
  let d2 := ((chosen d e opts).2.removeClass el opts.loadClass).dispose el
  if isIE then d2.morphTo el opts.hideSelector else d2

/-- The document a first construction leaves behind. -/
def setupDom (isIE : Bool) (d : Dom) (e : Arg) (opts : Options) (self : ObjId) : Dom :=
  (preparedDom isIE d e opts).addEvent (chosen d e opts).1 (.boundHide self)

/-! ## Sample pages -/

/-- A document (node 0) with its root element (node 1) and its body (node 2),
which holds one block (node 3, `id="a"`). -/
def demoDom : Dom :=
  { doc := 0
    html := 1
    body := 2
    nextNode := 4
    parent := fun n => if n = 1 then some 0 else if n = 2 then some 1 else if n = 3 then some 2
      else none
    children := fun n => if n = 0 then [1] else if n = 1 then [2] else if n = 2 then [3] else []
    classes := fun _ => ∅
    tag := fun n => if n = 1 then "html" else if n = 2 then "body" else "div"
    attrs := fun n => if n = 3 then [("id", "a")] else []
    width := fun _ => none
    height := fun _ => none
    morph := fun _ => none
    click := fun _ => []
    scroll := fun n => if n = 2 then { x := 800, y := 600 } else { x := 300, y := 200 } }

/-- A modern browser showing `demoDom`, before any controller exists. -/
def demoPage : World :=
  { isIE := false, dom := demoDom, nextObj := 0, single := none, fired := [] }

/-- The world of a call that returned, or `w` when it threw. -/
def settle (r : Except Err World) (w : World) : World :=
  match r with
  | .ok w' => w'
  | .error _ => w

/-- The world after `new BackDrop(e, o)`, or `w` when it threw. -/
def built (w : World) (e : Arg) (o : Option Overrides) : World :=
  match w.construct e o with
  | .ok (_, w') => w'
  | .error _ => w

/-- The controller stored by `new BackDrop()` on the sample page: the overlay
is the new node 4 and the reference is the body. -/
def demoController : Controller :=
  { self := 0, options := defaults, element := some 4, reference := some 2 }

/-- After `new BackDrop()` on the sample page. -/
def demoBuilt : World := built demoPage .absent none

/-- After `new BackDrop().show()`. -/
def demoShown : World := settle (World.show demoBuilt) demoBuilt

/-- After `new BackDrop()` followed by `setReference(this.element)`. -/
def demoSelf : World := settle (demoBuilt.setReference (.node 4)) demoBuilt

/-- After `new BackDrop().show().setReference('a')`. -/
def demoMoved : World := settle (demoShown.setReference (.ident "a")) demoShown

/-- Options in which both directions use the same class name. -/
def sameClass : Overrides :=
  { Overrides.empty with showClass := some "veil", hideClass := some "veil" }

/-- After `new BackDrop(null, {showClass: 'veil', hideClass: 'veil'})`. -/
def demoSame : World := built demoPage .absent (some sameClass)

/-- Options in which both class options are the empty string. -/
def noClass : Overrides :=
  { Overrides.empty with showClass := some "", hideClass := some "" }

/-- After `new BackDrop(null, {showClass: '', hideClass: ''})`. -/
def demoBlank : World := built demoPage .absent (some noClass)

/-- After `new BackDrop(document.body)`: the body is the overlay. -/
def demoBody : World := built demoPage (.node 2) none

/-- Options that create the overlay with a class of its own. -/
def bornHidden : Overrides :=
  { Overrides.empty with attributes := [("class", "hidden")] }

/-- After `new BackDrop(null, {elementOpts: {attributes: {'class': 'hidden'}}})`. -/
def demoBorn : World := built demoPage .absent (some bornHidden)


/-! ## Tables and documents -/

@[simp] theorem upd_same {α : Type} (f : NodeId → α) (k : NodeId) (v : α) : upd f k v k = v := by
  simp [upd]

theorem upd_other {α : Type} (f : NodeId → α) {k n : NodeId} (v : α) (h : n ≠ k) :
    upd f k v n = f n := by
  simp [upd, h]

@[simp] theorem upd_upd {α : Type} (f : NodeId → α) (k : NodeId) (a v : α) :
    upd (upd f k a) k v = upd f k v := by
  funext n
  by_cases h : n = k <;> simp [upd, h]

theorem upd_self {α : Type} (f : NodeId → α) (k : NodeId) : upd f k (f k) = f := by
  funext n
  by_cases h : n = k <;> simp [upd, h]

namespace Dom

@[simp] theorem dispose_doc (d : Dom) (n : NodeId) : (d.dispose n).doc = d.doc := by
  unfold dispose; cases d.parent n <;> rfl

@[simp] theorem dispose_html (d : Dom) (n : NodeId) : (d.dispose n).html = d.html := by
  unfold dispose; cases d.parent n <;> rfl

@[simp] theorem dispose_body (d : Dom) (n : NodeId) : (d.dispose n).body = d.body := by
  unfold dispose; cases d.parent n <;> rfl

@[simp] theorem dispose_nextNode (d : Dom) (n : NodeId) : (d.dispose n).nextNode = d.nextNode := by
  unfold dispose; cases d.parent n <;> rfl

@[simp] theorem dispose_classes (d : Dom) (n : NodeId) : (d.dispose n).classes = d.classes := by
  unfold dispose; cases d.parent n <;> rfl

@[simp] theorem dispose_tag (d : Dom) (n : NodeId) : (d.dispose n).tag = d.tag := by
  unfold dispose; cases d.parent n <;> rfl

@[simp] theorem dispose_attrs (d : Dom) (n : NodeId) : (d.dispose n).attrs = d.attrs := by
  unfold dispose; cases d.parent n <;> rfl

@[simp] theorem dispose_width (d : Dom) (n : NodeId) : (d.dispose n).width = d.width := by
  unfold dispose; cases d.parent n <;> rfl

@[simp] theorem dispose_height (d : Dom) (n : NodeId) : (d.dispose n).height = d.height := by
  unfold dispose; cases d.parent n <;> rfl

@[simp] theorem dispose_morph (d : Dom) (n : NodeId) : (d.dispose n).morph = d.morph := by
  unfold dispose; cases d.parent n <;> rfl

@[simp] theorem dispose_click (d : Dom) (n : NodeId) : (d.dispose n).click = d.click := by
  unfold dispose; cases d.parent n <;> rfl

@[simp] theorem dispose_scroll (d : Dom) (n : NodeId) : (d.dispose n).scroll = d.scroll := by
  unfold dispose; cases d.parent n <;> rfl

@[simp] theorem adopt_doc (d : Dom) (p c : NodeId) : (d.adopt p c).doc = d.doc := by
  unfold adopt; simp

@[simp] theorem adopt_html (d : Dom) (p c : NodeId) : (d.adopt p c).html = d.html := by
  unfold adopt; simp

@[simp] theorem adopt_body (d : Dom) (p c : NodeId) : (d.adopt p c).body = d.body := by
  unfold adopt; simp

@[simp] theorem adopt_nextNode (d : Dom) (p c : NodeId) : (d.adopt p c).nextNode = d.nextNode := by
  unfold adopt; simp

@[simp] theorem adopt_classes (d : Dom) (p c : NodeId) : (d.adopt p c).classes = d.classes := by
  unfold adopt; simp

@[simp] theorem adopt_tag (d : Dom) (p c : NodeId) : (d.adopt p c).tag = d.tag := by
  unfold adopt; simp

@[simp] theorem adopt_attrs (d : Dom) (p c : NodeId) : (d.adopt p c).attrs = d.attrs := by
  unfold adopt; simp

@[simp] theorem adopt_width (d : Dom) (p c : NodeId) : (d.adopt p c).width = d.width := by
  unfold adopt; simp

@[simp] theorem adopt_height (d : Dom) (p c : NodeId) : (d.adopt p c).height = d.height := by
  unfold adopt; simp

@[simp] theorem adopt_morph (d : Dom) (p c : NodeId) : (d.adopt p c).morph = d.morph := by
  unfold adopt; simp

@[simp] theorem adopt_click (d : Dom) (p c : NodeId) : (d.adopt p c).click = d.click := by
  unfold adopt; simp

@[simp] theorem adopt_scroll (d : Dom) (p c : NodeId) : (d.adopt p c).scroll = d.scroll := by
  unfold adopt; simp

@[simp] theorem setStyles_doc (d : Dom) (n : NodeId) (h w : Nat) : (d.setStyles n h w).doc = d.doc := by
  rfl

@[simp] theorem setStyles_html (d : Dom) (n : NodeId) (h w : Nat) : (d.setStyles n h w).html = d.html := by
  rfl

@[simp] theorem setStyles_body (d : Dom) (n : NodeId) (h w : Nat) : (d.setStyles n h w).body = d.body := by
  rfl

@[simp] theorem setStyles_nextNode (d : Dom) (n : NodeId) (h w : Nat) : (d.setStyles n h w).nextNode = d.nextNode := by
  rfl

@[simp] theorem setStyles_parent (d : Dom) (n : NodeId) (h w : Nat) : (d.setStyles n h w).parent = d.parent := by
  rfl

@[simp] theorem setStyles_children (d : Dom) (n : NodeId) (h w : Nat) : (d.setStyles n h w).children = d.children := by
  rfl

@[simp] theorem setStyles_classes (d : Dom) (n : NodeId) (h w : Nat) : (d.setStyles n h w).classes = d.classes := by
  rfl

@[simp] theorem setStyles_tag (d : Dom) (n : NodeId) (h w : Nat) : (d.setStyles n h w).tag = d.tag := by
  rfl

@[simp] theorem setStyles_attrs (d : Dom) (n : NodeId) (h w : Nat) : (d.setStyles n h w).attrs = d.attrs := by
  rfl

@[simp] theorem setStyles_morph (d : Dom) (n : NodeId) (h w : Nat) : (d.setStyles n h w).morph = d.morph := by
  rfl

@[simp] theorem setStyles_click (d : Dom) (n : NodeId) (h w : Nat) : (d.setStyles n h w).click = d.click := by
  rfl

@[simp] theorem setStyles_scroll (d : Dom) (n : NodeId) (h w : Nat) : (d.setStyles n h w).scroll = d.scroll := by
  rfl

@[simp] theorem removeClass_doc (d : Dom) (n : NodeId) (c : String) : (d.removeClass n c).doc = d.doc := by
  rfl

@[simp] theorem removeClass_html (d : Dom) (n : NodeId) (c : String) : (d.removeClass n c).html = d.html := by
  rfl

@[simp] theorem removeClass_body (d : Dom) (n : NodeId) (c : String) : (d.removeClass n c).body = d.body := by
  rfl

@[simp] theorem removeClass_nextNode (d : Dom) (n : NodeId) (c : String) : (d.removeClass n c).nextNode = d.nextNode := by
  rfl

@[simp] theorem removeClass_parent (d : Dom) (n : NodeId) (c : String) : (d.removeClass n c).parent = d.parent := by
  rfl

@[simp] theorem removeClass_children (d : Dom) (n : NodeId) (c : String) : (d.removeClass n c).children = d.children := by
  rfl

@[simp] theorem removeClass_tag (d : Dom) (n : NodeId) (c : String) : (d.removeClass n c).tag = d.tag := by
  rfl

@[simp] theorem removeClass_attrs (d : Dom) (n : NodeId) (c : String) : (d.removeClass n c).attrs = d.attrs := by
  rfl

@[simp] theorem removeClass_width (d : Dom) (n : NodeId) (c : String) : (d.removeClass n c).width = d.width := by
  rfl

@[simp] theorem removeClass_height (d : Dom) (n : NodeId) (c : String) : (d.removeClass n c).height = d.height := by
  rfl

@[simp] theorem removeClass_morph (d : Dom) (n : NodeId) (c : String) : (d.removeClass n c).morph = d.morph := by
  rfl

@[simp] theorem removeClass_click (d : Dom) (n : NodeId) (c : String) : (d.removeClass n c).click = d.click := by
  rfl

@[simp] theorem removeClass_scroll (d : Dom) (n : NodeId) (c : String) : (d.removeClass n c).scroll = d.scroll := by
  rfl

@[simp] theorem addClass_doc (d : Dom) (n : NodeId) (c : String) : (d.addClass n c).doc = d.doc := by
  rfl

@[simp] theorem addClass_html (d : Dom) (n : NodeId) (c : String) : (d.addClass n c).html = d.html := by
  rfl

@[simp] theorem addClass_body (d : Dom) (n : NodeId) (c : String) : (d.addClass n c).body = d.body := by
  rfl

@[simp] theorem addClass_nextNode (d : Dom) (n : NodeId) (c : String) : (d.addClass n c).nextNode = d.nextNode := by
  rfl

@[simp] theorem addClass_parent (d : Dom) (n : NodeId) (c : String) : (d.addClass n c).parent = d.parent := by
  rfl

@[simp] theorem addClass_children (d : Dom) (n : NodeId) (c : String) : (d.addClass n c).children = d.children := by
  rfl

@[simp] theorem addClass_tag (d : Dom) (n : NodeId) (c : String) : (d.addClass n c).tag = d.tag := by
  rfl

@[simp] theorem addClass_attrs (d : Dom) (n : NodeId) (c : String) : (d.addClass n c).attrs = d.attrs := by
  rfl

@[simp] theorem addClass_width (d : Dom) (n : NodeId) (c : String) : (d.addClass n c).width = d.width := by
  rfl

@[simp] theorem addClass_height (d : Dom) (n : NodeId) (c : String) : (d.addClass n c).height = d.height := by
  rfl

@[simp] theorem addClass_morph (d : Dom) (n : NodeId) (c : String) : (d.addClass n c).morph = d.morph := by
  rfl

@[simp] theorem addClass_click (d : Dom) (n : NodeId) (c : String) : (d.addClass n c).click = d.click := by
  rfl

@[simp] theorem addClass_scroll (d : Dom) (n : NodeId) (c : String) : (d.addClass n c).scroll = d.scroll := by
  rfl

@[simp] theorem morphTo_doc (d : Dom) (n : NodeId) (s : String) : (d.morphTo n s).doc = d.doc := by
  rfl

@[simp] theorem morphTo_html (d : Dom) (n : NodeId) (s : String) : (d.morphTo n s).html = d.html := by
  rfl

@[simp] theorem morphTo_body (d : Dom) (n : NodeId) (s : String) : (d.morphTo n s).body = d.body := by
  rfl

@[simp] theorem morphTo_nextNode (d : Dom) (n : NodeId) (s : String) : (d.morphTo n s).nextNode = d.nextNode := by
  rfl

@[simp] theorem morphTo_parent (d : Dom) (n : NodeId) (s : String) : (d.morphTo n s).parent = d.parent := by
  rfl

@[simp] theorem morphTo_children (d : Dom) (n : NodeId) (s : String) : (d.morphTo n s).children = d.children := by
  rfl

@[simp] theorem morphTo_classes (d : Dom) (n : NodeId) (s : String) : (d.morphTo n s).classes = d.classes := by
  rfl

@[simp] theorem morphTo_tag (d : Dom) (n : NodeId) (s : String) : (d.morphTo n s).tag = d.tag := by
  rfl

@[simp] theorem morphTo_attrs (d : Dom) (n : NodeId) (s : String) : (d.morphTo n s).attrs = d.attrs := by
  rfl

@[simp] theorem morphTo_width (d : Dom) (n : NodeId) (s : String) : (d.morphTo n s).width = d.width := by
  rfl

@[simp] theorem morphTo_height (d : Dom) (n : NodeId) (s : String) : (d.morphTo n s).height = d.height := by
  rfl

@[simp] theorem morphTo_click (d : Dom) (n : NodeId) (s : String) : (d.morphTo n s).click = d.click := by
  rfl

@[simp] theorem morphTo_scroll (d : Dom) (n : NodeId) (s : String) : (d.morphTo n s).scroll = d.scroll := by
  rfl

@[simp] theorem addEvent_doc (d : Dom) (n : NodeId) (l : Listener) : (d.addEvent n l).doc = d.doc := by
  unfold addEvent; split <;> rfl

@[simp] theorem addEvent_html (d : Dom) (n : NodeId) (l : Listener) : (d.addEvent n l).html = d.html := by
  unfold addEvent; split <;> rfl

@[simp] theorem addEvent_body (d : Dom) (n : NodeId) (l : Listener) : (d.addEvent n l).body = d.body := by
  unfold addEvent; split <;> rfl

@[simp] theorem addEvent_nextNode (d : Dom) (n : NodeId) (l : Listener) : (d.addEvent n l).nextNode = d.nextNode := by
  unfold addEvent; split <;> rfl

@[simp] theorem addEvent_parent (d : Dom) (n : NodeId) (l : Listener) : (d.addEvent n l).parent = d.parent := by
  unfold addEvent; split <;> rfl

@[simp] theorem addEvent_children (d : Dom) (n : NodeId) (l : Listener) : (d.addEvent n l).children = d.children := by
  unfold addEvent; split <;> rfl

@[simp] theorem addEvent_classes (d : Dom) (n : NodeId) (l : Listener) : (d.addEvent n l).classes = d.classes := by
  unfold addEvent; split <;> rfl

@[simp] theorem addEvent_tag (d : Dom) (n : NodeId) (l : Listener) : (d.addEvent n l).tag = d.tag := by
  unfold addEvent; split <;> rfl

@[simp] theorem addEvent_attrs (d : Dom) (n : NodeId) (l : Listener) : (d.addEvent n l).attrs = d.attrs := by
  unfold addEvent; split <;> rfl

@[simp] theorem addEvent_width (d : Dom) (n : NodeId) (l : Listener) : (d.addEvent n l).width = d.width := by
  unfold addEvent; split <;> rfl

@[simp] theorem addEvent_height (d : Dom) (n : NodeId) (l : Listener) : (d.addEvent n l).height = d.height := by
  unfold addEvent; split <;> rfl

@[simp] theorem addEvent_morph (d : Dom) (n : NodeId) (l : Listener) : (d.addEvent n l).morph = d.morph := by
  unfold addEvent; split <;> rfl

@[simp] theorem addEvent_scroll (d : Dom) (n : NodeId) (l : Listener) : (d.addEvent n l).scroll = d.scroll := by
  unfold addEvent; split <;> rfl

end Dom


/-! ## The element tree -/

namespace Dom

theorem dispose_parent_self (d : Dom) (n : NodeId) : (d.dispose n).parent n = none := by
  unfold dispose
  cases h : d.parent n with
  | none => simpa using h
  | some p => simp

theorem dispose_parent_other (d : Dom) {n m : NodeId} (h : m ≠ n) :
    (d.dispose n).parent m = d.parent m := by
  unfold dispose
  cases d.parent n with
  | none => rfl
  | some p => simp [upd, h]

theorem dispose_tree {d : Dom} (t : d.Tree) (n : NodeId) : (d.dispose n).Tree := by
  unfold dispose
  cases h : d.parent n with
  | none => simpa using t
  | some p =>
    refine ⟨?_, ?_⟩
    · intro c q
      simp only [upd]
      by_cases hc : c = n
      · subst hc
        by_cases hq : q = p
        · subst hq
          simp [(t.once q).mem_erase_iff]
        · have : c ∉ d.children q := by
            rw [t.link, h]
            intro e
            exact hq (Option.some.inj e).symm
          simp [hq, this]
      · by_cases hq : q = p
        · subst hq
          simp [hc, (t.once q).mem_erase_iff, t.link]
        · simp [hc, hq, t.link]
    · intro q
      simp only [upd]
      by_cases hq : q = p
      · subst hq
        simpa using (t.once q).erase n
      · simpa [hq] using t.once q

theorem not_mem_children_of_detached {d : Dom} (t : d.Tree) {n : NodeId}
    (h : d.parent n = none) (p : NodeId) : n ∉ d.children p := by
  rw [t.link, h]
  simp

theorem adopt_parent_self (d : Dom) (p c : NodeId) : (d.adopt p c).parent c = some p := by
  simp [adopt]

theorem adopt_parent_other (d : Dom) (p : NodeId) {c m : NodeId} (h : m ≠ c) :
    (d.adopt p c).parent m = d.parent m := by
  simp [adopt, upd, h, dispose_parent_other]

theorem adopt_children_self (d : Dom) (p c : NodeId) :
    (d.adopt p c).children p = (d.dispose c).children p ++ [c] := by
  simp [adopt]

theorem adopt_tree {d : Dom} (t : d.Tree) (p c : NodeId) : (d.adopt p c).Tree := by
  have t1 := dispose_tree t c
  have hc := dispose_parent_self d c
  have hout := not_mem_children_of_detached t1 hc
  unfold adopt
  refine ⟨?_, ?_⟩
  · intro x q
    simp only [upd]
    by_cases hx : x = c
    · subst hx
      by_cases hq : q = p
      · subst hq
        simp
      · have : ¬ p = q := fun e => hq e.symm
        simp [hq, hout q, this]
    · by_cases hq : q = p
      · subst hq
        simp [hx, t1.link]
      · simp [hx, hq, t1.link]
  · intro q
    simp only [upd]
    by_cases hq : q = p
    · subst hq
      simp only [if_true]
      rw [List.nodup_append]
      refine ⟨t1.once q, List.nodup_singleton c, ?_⟩
      intro a ha hb
      rw [List.mem_singleton] at hb
      subst hb
      exact hout q ha
    · simpa [hq] using t1.once q

theorem tree_of_same {d e : Dom} (t : d.Tree) (hp : e.parent = d.parent)
    (hc : e.children = d.children) : e.Tree :=
  ⟨by rw [hp, hc]; exact t.link, by rw [hc]; exact t.once⟩

theorem newElement_tree {d : Dom} (t : d.Tree)
    (blank : ∀ n, d.nextNode ≤ n → d.parent n = none ∧ d.children n = [])
    (tag : String) (attributes : List (String × String)) :
    (d.newElement tag attributes).2.Tree := by
  have hb := blank d.nextNode (le_refl _)
  apply tree_of_same t
  · show upd d.parent d.nextNode none = d.parent
    rw [← hb.1]; exact upd_self _ _
  · show upd d.children d.nextNode [] = d.children
    rw [← hb.2]; exact upd_self _ _

end Dom


/-! ## Class names -/

theorem scan_plain (cs : List Char) (h : ∀ c ∈ cs, isSpace c = false) : scan cs = (cs, []) := by
  induction cs with
  | nil => rfl
  | cons c cs ih =>
    have hc : isSpace c = false := h c (List.mem_cons_self c cs)
    have hcs := ih (fun x hx => h x (List.mem_cons_of_mem c hx))
    simp [scan, hc, hcs]

theorem scan_clean (cs : List Char) :
    (∀ c ∈ (scan cs).1, isSpace c = false) ∧
    ∀ w ∈ (scan cs).2, w ≠ [] ∧ ∀ c ∈ w, isSpace c = false := by
  induction cs with
  | nil => simp [scan]
  | cons c cs ih =>
    unfold scan
    by_cases hc : isSpace c = true
    · simp only [hc, if_true]
      refine ⟨by simp, ?_⟩
      intro w hw
      by_cases he : (scan cs).1 = []
      · rw [if_pos he] at hw
        exact ih.2 w hw
      · rw [if_neg he] at hw
        rcases List.mem_cons.1 hw with e | hw
        · subst e
          exact ⟨he, ih.1⟩
        · exact ih.2 w hw
    · have hc' : isSpace c = false := by simpa using hc
      simp only [hc', Bool.false_eq_true, if_false]
      refine ⟨?_, ih.2⟩
      intro x hx
      rcases List.mem_cons.1 hx with e | hx
      · subst e
        exact hc'
      · exact ih.1 x hx

theorem words_clean (cs : List Char) :
    ∀ w ∈ words cs, w ≠ [] ∧ ∀ c ∈ w, isSpace c = false := by
  intro w hw
  unfold words at hw
  by_cases he : (scan cs).1 = []
  · rw [if_pos he] at hw
    exact (scan_clean cs).2 w hw
  · rw [if_neg he] at hw
    rcases List.mem_cons.1 hw with e | hw
    · subst e
      exact ⟨he, (scan_clean cs).1⟩
    · exact (scan_clean cs).2 w hw

theorem names_of_isName {s : String} (h : isName s = true) : names s = {s} := by
  unfold isName at h
  simp only [Bool.and_eq_true, Bool.not_eq_true', List.all_eq_true] at h
  have h1 : s.data ≠ [] := by
    intro e
    rw [e] at h
    simp at h
  have h2 : ∀ c ∈ s.data, isSpace c = false := fun c hc => h.2 c hc
  have hw : words s.data = [s.data] := by
    unfold words
    rw [scan_plain s.data h2]
    simp [h1]
  unfold names
  rw [hw]
  rfl

theorem isName_of_mem_names {s t : String} (h : t ∈ names s) : isName t = true := by
  unfold names at h
  rw [List.mem_toFinset, List.mem_map] at h
  obtain ⟨w, hw, e⟩ := h
  subst e
  have hc := words_clean s.data w hw
  unfold isName
  simp only [Bool.and_eq_true, Bool.not_eq_true', List.all_eq_true]
  refine ⟨?_, fun c hx => hc.2 c hx⟩
  cases w with
  | nil => exact absurd rfl hc.1
  | cons a l => rfl

theorem swapClass_idem (l : Finset String) (came gone : String) :
    swapClass (swapClass l came gone) came gone = swapClass l came gone := by
  unfold swapClass
  ext a
  simp only [Finset.mem_union, Finset.mem_sdiff]
  tauto

theorem swapClass_holds (l : Finset String) (came gone : String) :
    names came ⊆ swapClass l came gone :=
  Finset.subset_union_right

theorem swapClass_drops (l : Finset String) (came gone : String) {a : String}
    (h1 : a ∈ names gone) (h2 : a ∉ names came) : a ∉ swapClass l came gone := by
  unfold swapClass
  simp only [Finset.mem_union, Finset.mem_sdiff]
  tauto

/-! ## What one call does -/

section toggled

variable (isIE : Bool) (o : Options) (d : Dom) (n : NodeId) (k j : Key)

@[simp] theorem toggled_doc : (toggled isIE o d n k j).doc = d.doc := by
  unfold toggled; split <;> simp

@[simp] theorem toggled_html : (toggled isIE o d n k j).html = d.html := by
  unfold toggled; split <;> simp

@[simp] theorem toggled_body : (toggled isIE o d n k j).body = d.body := by
  unfold toggled; split <;> simp

@[simp] theorem toggled_nextNode : (toggled isIE o d n k j).nextNode = d.nextNode := by
  unfold toggled; split <;> simp

@[simp] theorem toggled_parent : (toggled isIE o d n k j).parent = d.parent := by
  unfold toggled; split <;> simp

@[simp] theorem toggled_children : (toggled isIE o d n k j).children = d.children := by
  unfold toggled; split <;> simp

@[simp] theorem toggled_width : (toggled isIE o d n k j).width = d.width := by
  unfold toggled; split <;> simp

@[simp] theorem toggled_height : (toggled isIE o d n k j).height = d.height := by
  unfold toggled; split <;> simp

@[simp] theorem toggled_click : (toggled isIE o d n k j).click = d.click := by
  unfold toggled; split <;> simp

@[simp] theorem toggled_scroll : (toggled isIE o d n k j).scroll = d.scroll := by
  unfold toggled; split <;> simp

@[simp] theorem toggled_tag : (toggled isIE o d n k j).tag = d.tag := by
  unfold toggled; split <;> simp

@[simp] theorem toggled_attrs : (toggled isIE o d n k j).attrs = d.attrs := by
  unfold toggled; split <;> simp

theorem toggled_morph : (toggled true o d n k j).morph n = some (o.selectorOf k) := by
  simp [toggled, Dom.morphTo]

theorem toggled_morph_legacy :
    (toggled true o d n k j).morph = upd d.morph n (some (o.selectorOf k)) := by
  simp [toggled, Dom.morphTo]

theorem toggled_morph_modern : (toggled false o d n k j).morph = d.morph := by
  simp [toggled]

theorem toggled_classes_legacy : (toggled true o d n k j).classes = d.classes := by
  simp [toggled]

theorem toggled_classes_modern :
    (toggled false o d n k j).classes =
      upd d.classes n (swapClass (d.classes n) (o.classOf k) (o.classOf j)) := by
  simp [toggled, Dom.addClass, Dom.removeClass, swapClass]

theorem toggled_holds_to : names (o.classOf k) ⊆ (toggled false o d n k j).classes n := by
  rw [toggled_classes_modern, upd_same]
  exact swapClass_holds _ _ _

theorem toggled_has_to (h : isName (o.classOf k) = true) :
    (toggled false o d n k j).hasClass n (o.classOf k) = true := by
  have hm : o.classOf k ∈ (toggled false o d n k j).classes n :=
    toggled_holds_to o d n k j (by rw [names_of_isName h]; exact Finset.mem_singleton_self _)
  simp [Dom.hasClass, h, hm]

theorem toggled_lacks_from (h : o.classOf j ∉ names (o.classOf k)) :
    (toggled false o d n k j).hasClass n (o.classOf j) = false := by
  cases hn : isName (o.classOf j) with
  | false => simp [Dom.hasClass, hn]
  | true =>
    have h1 : o.classOf j ∈ names (o.classOf j) := by
      rw [names_of_isName hn]; exact Finset.mem_singleton_self _
    have h2 := swapClass_drops (d.classes n) (o.classOf k) (o.classOf j) h1 h
    simp [Dom.hasClass, toggled_classes_modern, h2]

end toggled

theorem toggle_run (w : World) {b : Controller} {n : NodeId} (hb : w.single = some b)
    (hn : b.element = some n) (k j : Key) :
    w.toggle k j = .ok { w with dom := toggled w.isIE b.options w.dom n k j } := by
  cases hie : w.isIE <;> simp [World.toggle, hb, hn, hie, toggled]

theorem resize_run (w : World) {b : Controller} {n r : NodeId} (hb : w.single = some b)
    (hn : b.element = some n) (hr : b.reference = some r) :
    w.resize = .ok { w with dom := w.dom.setStyles n (w.dom.scroll r).y (w.dom.scroll r).x } := by
  simp [World.resize, hb, hn, hr]

theorem setReference_run (w : World) {b : Controller} (hb : w.single = some b) (a : Arg) :
    w.setReference a = .ok { w with single := some { b with reference := w.dom.resolve a } } := by
  unfold World.setReference
  simp only [hb]

theorem resolve_node (d : Dom) (m : NodeId) : d.resolve (.node m) = some m := rfl

theorem resolve_found (d : Dom) (x : Arg) {m : NodeId} (h : d.documentId x = some m) :
    d.resolve x = some m := by
  unfold Dom.resolve
  rw [h]
  rfl

theorem resolve_fallback (d : Dom) (x : Arg) (h : d.documentId x = none) :
    d.resolve x = d.documentBody := by
  unfold Dom.resolve
  rw [h]
  cases d.documentBody <;> rfl

theorem resize_null (w : World) {b : Controller} (hb : w.single = some b)
    (hr : b.reference = none) : w.resize = .error .typeError := by
  simp [World.resize, hb, hr]

theorem show_null (w : World) {b : Controller} (hb : w.single = some b)
    (hr : b.reference = none) : World.show w = .error .typeError := by
  have h1 : w.inject = .error .typeError := by
    unfold World.inject
    simp only [hb, hr]
    cases b.element <;> rfl
  simp [World.show, h1, bind, Except.bind]

theorem show_run (w : World) {b : Controller} {n r : NodeId} (hb : w.single = some b)
    (hn : b.element = some n) (hr : b.reference = some r)
    (hfree : w.dom.contains n r = false) :
    World.show w =
      .ok { w with
            dom := showDom w b n r
            fired := w.fired ++ [{ name := .show, dom := showDom w b n r, receiver := b }] } := by
  have h1 : w.inject = .ok { w with dom := w.dom.adopt r n } := by
    simp [World.inject, hb, hn, hr, Dom.appendChild, hfree]
  have h2 := resize_run { w with dom := w.dom.adopt r n } hb hn hr
  simp only [Dom.adopt_scroll] at h2
  have h3 := toggle_run
    { w with dom := ((w.dom.adopt r n).setStyles n (w.dom.scroll r).y (w.dom.scroll r).x) }
    hb hn .show .hide
  simp only [World.show, h1, h2, h3, bind, Except.bind]
  simp [World.fireEvent, hb, showDom]

theorem show_refused (w : World) {b : Controller} {n r : NodeId} (hb : w.single = some b)
    (hn : b.element = some n) (hr : b.reference = some r)
    (hin : w.dom.contains n r = true) :
    World.show w = .error .hierarchyRequest := by
  have h1 : w.inject = .error .hierarchyRequest := by
    simp [World.inject, hb, hn, hr, Dom.appendChild, hin]
  simp [World.show, h1, bind, Except.bind]

theorem hide_run (w : World) {b : Controller} {n : NodeId} (hb : w.single = some b)
    (hn : b.element = some n) :
    w.hide =
      .ok { w with
            dom := hideDom w b n
            fired := w.fired ++ [{ name := .hide, dom := hideDom w b n, receiver := b }] } := by
  simp only [World.hide, toggle_run w hb hn, bind, Except.bind]
  simp [World.disposeElement, World.fireEvent, hb, hn, hideDom]


/-! ## Construction -/

theorem construct_again (w : World) {b : Controller} (hb : w.single = some b) (e : Arg)
    (o : Option Overrides) :
    w.construct e o = .ok (b.self, { w with nextObj := w.nextObj + 1 }) := by
  simp [World.construct, World.initialise, World.check, hb]

theorem setup_run (w : World) {b : Controller} (hb : w.single = some b) (e : Arg)
    (o : Option Overrides) :
    w.setup e o =
      .ok { w with
            dom := setupDom w.isIE w.dom e (setOptions b.options o) b.self
            single := some
              { self := b.self
                options := setOptions b.options o
                element := some (chosen w.dom e (setOptions b.options o)).1
                reference :=
                  (preparedDom w.isIE w.dom e (setOptions b.options o)).resolve
                    (setOptions b.options o).reference } } := by
  have key : ∀ (el : NodeId) (d3 : Dom) (a : Arg),
      (World.setReference
          { w with dom := d3
                   single := some { b with options := setOptions b.options o, element := some el } }
          a >>= fun w2 => w2.attachEvents el) =
        .ok { w with
              dom := d3.addEvent el (.boundHide b.self)
              single := some
                { self := b.self
                  options := setOptions b.options o
                  element := some el
                  reference := d3.resolve a } } := by
    intro el d3 a
    rw [setReference_run _ rfl]
    simp [bind, Except.bind, World.attachEvents]
  unfold World.setup
  simp only [hb]
  exact key _ _ _

theorem construct_first (w : World) (hb : w.single = none) (e : Arg) (o : Option Overrides) :
    w.construct e o =
      .ok (w.nextObj,
           { w with
             dom := setupDom w.isIE w.dom e (setOptions defaults o) w.nextObj
             nextObj := w.nextObj + 1
             single := some
               { self := w.nextObj
                 options := setOptions defaults o
                 element := some (chosen w.dom e (setOptions defaults o)).1
                 reference :=
                   (preparedDom w.isIE w.dom e (setOptions defaults o)).resolve
                     (setOptions defaults o).reference } }) := by
  simp only [World.construct, World.initialise, World.check, hb]
  rw [setup_run _ rfl]


theorem chosen_tree {d : Dom} (t : d.Tree)
    (blank : ∀ n, d.nextNode ≤ n → d.parent n = none ∧ d.children n = []) (e : Arg)
    (opts : Options) : (chosen d e opts).2.Tree := by
  unfold chosen
  cases d.documentId e with
  | some n => exact t
  | none => exact Dom.newElement_tree t blank _ _

theorem chosen_click {d : Dom} (quiet : ∀ n, d.click n = []) (e : Arg) (opts : Options)
    (m : NodeId) : (chosen d e opts).2.click m = [] := by
  unfold chosen
  cases d.documentId e with
  | some n => exact quiet m
  | none =>
    show upd d.click d.nextNode [] m = []
    by_cases h : m = d.nextNode <;> simp [upd, h, quiet]

theorem preparedDom_parent (isIE : Bool) (d : Dom) (e : Arg) (opts : Options) :
    (preparedDom isIE d e opts).parent (chosen d e opts).1 = none := by
  unfold preparedDom
  cases isIE <;> simp [Dom.dispose_parent_self]

theorem setupDom_parent (isIE : Bool) (d : Dom) (e : Arg) (opts : Options) (self : ObjId) :
    (setupDom isIE d e opts self).parent (chosen d e opts).1 = none := by
  unfold setupDom
  simp [preparedDom_parent]

theorem setupDom_tree (isIE : Bool) {d : Dom} (t : d.Tree)
    (blank : ∀ n, d.nextNode ≤ n → d.parent n = none ∧ d.children n = []) (e : Arg)
    (opts : Options) (self : ObjId) : (setupDom isIE d e opts self).Tree := by
  have t1 : (chosen d e opts).2.Tree := chosen_tree t blank e opts
  have t2 : (((chosen d e opts).2.removeClass (chosen d e opts).1 opts.loadClass).dispose
      (chosen d e opts).1).Tree :=
    Dom.dispose_tree (Dom.tree_of_same t1 (by simp) (by simp)) _
  unfold setupDom preparedDom
  cases isIE
  · exact Dom.tree_of_same t2 (by simp) (by simp)
  · exact Dom.tree_of_same t2 (by simp) (by simp)

theorem setupDom_click (isIE : Bool) {d : Dom} (quiet : ∀ n, d.click n = []) (e : Arg)
    (opts : Options) (self : ObjId) :
    (setupDom isIE d e opts self).click (chosen d e opts).1 = [.boundHide self] := by
  have h := chosen_click quiet e opts (chosen d e opts).1
  unfold setupDom preparedDom
  cases isIE <;> simp [Dom.addEvent, h]

theorem setupDom_classes (isIE : Bool) (d : Dom) (e : Arg) (opts : Options) (self : ObjId) :
    (setupDom isIE d e opts self).classes (chosen d e opts).1 =
      (chosen d e opts).2.classes (chosen d e opts).1 \ names opts.loadClass := by
  cases isIE <;> simp [setupDom, preparedDom, Dom.removeClass]

theorem setupDom_morph (d : Dom) (e : Arg) (opts : Options) (self : ObjId) :
    (setupDom true d e opts self).morph (chosen d e opts).1 = some opts.hideSelector := by
  simp [setupDom, preparedDom, Dom.morphTo]

theorem setupDom_lacks_load (isIE : Bool) (d : Dom) (e : Arg) (opts : Options) (self : ObjId) :
    (setupDom isIE d e opts self).hasClass (chosen d e opts).1 opts.loadClass = false := by
  cases hn : isName opts.loadClass with
  | false => simp [Dom.hasClass, hn]
  | true =>
    simp [Dom.hasClass, setupDom_classes, names_of_isName hn]

/-! ## The invariant -/

theorem inv_first {w w' : World} {i : ObjId} (f : Fresh w) (e : Arg) (o : Option Overrides)
    (h : w.construct e o = .ok (i, w')) :
    ∃ b n, Inv .hidden w' b n := by
  rw [construct_first w f.single] at h
  injection h with h
  injection h with _ h
  subst h
  refine ⟨_, _, ⟨rfl, rfl, ?_, ?_, ?_, ?_⟩⟩
  · exact setupDom_tree _ f.tree f.blank _ _ _
  · exact setupDom_click _ f.quiet _ _ _
  · intro _
    exact setupDom_parent _ _ _ _ _
  · intro u hu
    cases hu

theorem inv_again {ph : Phase} {w w' : World} {b : Controller} {n : NodeId} {i : ObjId}
    (v : Inv ph w b n) (e : Arg) (o : Option Overrides)
    (h : w.construct e o = .ok (i, w')) : Inv ph w' b n := by
  rw [construct_again w v.single] at h
  injection h with h
  injection h with _ h
  subst h
  exact ⟨v.single, v.element, v.tree, v.listeners, v.hidden, v.shown⟩

theorem showDom_parent (w : World) (b : Controller) (n r : NodeId) :
    (showDom w b n r).parent n = some r := by
  simp [showDom, Dom.adopt_parent_self]

theorem showDom_tree {w : World} (t : w.dom.Tree) (b : Controller) (n r : NodeId) :
    (showDom w b n r).Tree :=
  Dom.tree_of_same (Dom.adopt_tree t r n) (by simp [showDom]) (by simp [showDom])

theorem showDom_click (w : World) (b : Controller) (n r : NodeId) :
    (showDom w b n r).click = w.dom.click := by
  simp [showDom]

theorem hideDom_parent (w : World) (b : Controller) (n : NodeId) :
    (hideDom w b n).parent n = none := by
  simp [hideDom, Dom.dispose_parent_self]

theorem hideDom_tree {w : World} (t : w.dom.Tree) (b : Controller) (n : NodeId) :
    (hideDom w b n).Tree :=
  Dom.dispose_tree (Dom.tree_of_same t (by simp) (by simp)) n

theorem hideDom_click (w : World) (b : Controller) (n : NodeId) :
    (hideDom w b n).click = w.dom.click := by
  simp [hideDom]

theorem show_returns_free {w w' : World} {b : Controller} {n r : NodeId}
    (hb : w.single = some b) (hn : b.element = some n) (hr : b.reference = some r)
    (h : World.show w = .ok w') : w.dom.contains n r = false := by
  cases hc : w.dom.contains n r with
  | false => rfl
  | true =>
    rw [show_refused w hb hn hr hc] at h
    cases h

theorem inv_show {ph : Phase} {w w' : World} {b : Controller} {n r : NodeId}
    (v : Inv ph w b n) (hr : b.reference = some r) (h : World.show w = .ok w') :
    Inv (.shown r) w' b n := by
  have hfree := show_returns_free v.single v.element hr h
  rw [show_run w v.single v.element hr hfree] at h
  injection h with h
  subst h
  refine ⟨v.single, v.element, showDom_tree v.tree _ _ _, ?_, ?_, ?_⟩
  · show (showDom w b n r).click n = _
    rw [showDom_click]
    exact v.listeners
  · intro hp
    cases hp
  · intro u hu
    injection hu with hu
    subst hu
    refine ⟨showDom_parent _ _ _ _, ?_⟩
    show (if w.isIE = true then _ else _)
    cases hie : w.isIE
    · simp only [Bool.false_eq_true, if_false, showDom, hie]
      exact toggled_holds_to b.options _ n .show .hide
    · simp only [if_true, showDom, hie]
      exact toggled_morph b.options _ n .show .hide

theorem inv_hide {ph : Phase} {w w' : World} {b : Controller} {n : NodeId}
    (v : Inv ph w b n) (h : w.hide = .ok w') : Inv .hidden w' b n := by
  rw [hide_run w v.single v.element] at h
  injection h with h
  subst h
  refine ⟨v.single, v.element, hideDom_tree v.tree _ _, ?_, ?_, ?_⟩
  · show (hideDom w b n).click n = _
    rw [hideDom_click]
    exact v.listeners
  · intro _
    exact hideDom_parent _ _ _
  · intro u hu
    cases hu

theorem inv_resize {ph : Phase} {w w' : World} {b : Controller} {n : NodeId}
    (v : Inv ph w b n) (h : w.resize = .ok w') : Inv ph w' b n := by
  cases hr : b.reference with
  | none =>
    rw [resize_null w v.single hr] at h
    cases h
  | some r =>
    rw [resize_run w v.single v.element hr] at h
    injection h with h
    subst h
    exact ⟨v.single, v.element, Dom.tree_of_same v.tree (by simp) (by simp), v.listeners,
      v.hidden, v.shown⟩

theorem inv_setReference {ph : Phase} {w w' : World} {b : Controller} {n : NodeId}
    (v : Inv ph w b n) (a : Arg) (h : w.setReference a = .ok w') :
    Inv ph w' { b with reference := w.dom.resolve a } n := by
  rw [setReference_run w v.single] at h
  injection h with h
  subst h
  exact ⟨rfl, v.element, v.tree, v.listeners, v.hidden, v.shown⟩

theorem click_run (w : World) {b : Controller} {n : NodeId}
    (hb : w.single = some b) (hl : w.dom.click n = [.boundHide b.self]) :
    w.clickOn n = w.hide := by
  simp only [World.clickOn, hl, World.runListeners, World.runListener, hb, if_true]
  cases w.hide <;> rfl

theorem inv_layout {ph : Phase} {w : World} {b : Controller} {n : NodeId}
    (v : Inv ph w b n) (scroll : NodeId → Size) :
    Inv ph (w.relayout scroll) b n :=
  ⟨v.single, v.element, Dom.tree_of_same v.tree rfl rfl, v.listeners, v.hidden, v.shown⟩

theorem reachable_inv {ph : Phase} {w : World} (h : Reachable ph w) :
    ∃ b n, Inv ph w b n := by
  induction h with
  | first e o f hc => exact inv_first f e o hc
  | again e o _ hc ih =>
    obtain ⟨b, n, v⟩ := ih
    exact ⟨b, n, inv_again v e o hc⟩
  | afterShow _ hb hr hs ih =>
    obtain ⟨b, n, v⟩ := ih
    have e1 := Option.some.inj (v.single.symm.trans hb)
    subst e1
    exact ⟨b, n, inv_show v hr hs⟩
  | afterHide _ hh ih =>
    obtain ⟨b, n, v⟩ := ih
    exact ⟨b, n, inv_hide v hh⟩
  | afterResize _ hh ih =>
    obtain ⟨b, n, v⟩ := ih
    exact ⟨b, n, inv_resize v hh⟩
  | afterSetReference a _ hh ih =>
    obtain ⟨b, n, v⟩ := ih
    exact ⟨_, n, inv_setReference v a hh⟩
  | afterClick _ hb hn hc ih =>
    obtain ⟨b, n, v⟩ := ih
    have e1 := Option.some.inj (v.single.symm.trans hb)
    subst e1
    have e2 := Option.some.inj (v.element.symm.trans hn)
    subst e2
    rw [click_run _ v.single v.listeners] at hc
    exact ⟨b, n, inv_hide v hc⟩
  | afterLayout scroll _ ih =>
    obtain ⟨b, n, v⟩ := ih
    exact ⟨b, n, inv_layout v scroll⟩


/-! ## Calling twice -/

theorem Dom.dispose_of_detached {d : Dom} {n : NodeId} (h : d.parent n = none) :
    d.dispose n = d := by
  unfold Dom.dispose
  rw [h]

theorem Dom.adopt_again {d : Dom} (t : d.Tree) {p c : NodeId} (hp : d.parent c = some p)
    (l : List NodeId) (hl : d.children p = l ++ [c]) :
    (d.adopt p c).parent = d.parent ∧ (d.adopt p c).children = d.children := by
  have hnd := t.once p
  rw [hl, List.nodup_append] at hnd
  have hc : c ∉ l := fun h => hnd.2.2 h (List.mem_singleton_self c)
  have he : (d.children p).erase c = l := by
    rw [hl, List.erase_append_right _ hc]
    simp
  have hd : d.dispose c =
      { d with parent := upd d.parent c none
               children := upd d.children p ((d.children p).erase c) } := by
    unfold Dom.dispose
    rw [hp]
  unfold Dom.adopt
  simp only [hd, upd_upd, upd_same, he]
  constructor
  · rw [← hp]
    exact upd_self _ _
  · rw [← hl]
    exact upd_self _ _

theorem showDom_children (w : World) (b : Controller) (n r : NodeId) :
    (showDom w b n r).children r = (w.dom.dispose n).children r ++ [n] := by
  simp [showDom, Dom.adopt_children_self]

theorem showDom_idem {w : World} (t : w.dom.Tree) (b : Controller) (n r : NodeId) (v : World)
    (hie : v.isIE = w.isIE) (hd : v.dom = showDom w b n r) :
    showDom v b n r = showDom w b n r := by
  have ha := Dom.adopt_again (showDom_tree t b n r) (showDom_parent w b n r) _
    (showDom_children w b n r)
  have hs : (showDom w b n r).scroll = w.dom.scroll := by simp [showDom]
  rw [← hd]
  unfold showDom
  rw [hie]
  rw [← hd] at ha hs
  have hw : v.dom.width = upd w.dom.width n (some (w.dom.scroll r).x) := by
    rw [hd]; simp [showDom, Dom.setStyles]
  have hh : v.dom.height = upd w.dom.height n (some (w.dom.scroll r).y) := by
    rw [hd]; simp [showDom, Dom.setStyles]
  cases hi : w.isIE
  · have hc : v.dom.classes = upd w.dom.classes n
        (swapClass (w.dom.classes n) b.options.showClass b.options.hideClass) := by
      rw [hd]; simp [showDom, hi, toggled_classes_modern, Options.classOf]
    apply Dom.ext <;>
      simp [toggled_classes_modern, toggled_morph_modern, ha.1, ha.2, hs, Dom.setStyles, hw, hh, hc,
        Options.classOf, swapClass_idem]
  · have hm : v.dom.morph = upd w.dom.morph n (some b.options.showSelector) := by
      rw [hd]; simp [showDom, hi, toggled_morph_legacy, Options.selectorOf]
    apply Dom.ext <;>
      simp [toggled_classes_legacy, toggled_morph_legacy, ha.1, ha.2, hs, Dom.setStyles, hw, hh,
        hm, Options.selectorOf]

theorem hideDom_idem (w : World) (b : Controller) (n : NodeId) (v : World)
    (hie : v.isIE = w.isIE) (hd : v.dom = hideDom w b n) :
    hideDom v b n = hideDom w b n := by
  have hp : (toggled v.isIE b.options v.dom n .hide .show).parent n = none := by
    rw [toggled_parent, hd]
    exact hideDom_parent w b n
  unfold hideDom at hd ⊢
  rw [Dom.dispose_of_detached hp, hie, ← hd]
  cases hi : w.isIE
  · have hc : v.dom.classes = upd w.dom.classes n
        (swapClass (w.dom.classes n) b.options.hideClass b.options.showClass) := by
      rw [hd]; simp [hi, toggled_classes_modern, Options.classOf]
    apply Dom.ext <;>
      simp [toggled_classes_modern, toggled_morph_modern, hc, Options.classOf, swapClass_idem]
  · have hm : v.dom.morph = upd w.dom.morph n (some b.options.hideSelector) := by
      rw [hd]; simp [hi, toggled_morph_legacy, Options.selectorOf]
    apply Dom.ext <;>
      simp [toggled_classes_legacy, toggled_morph_legacy, hm, Options.selectorOf]


/-! ## The sample pages -/

theorem demoDom_tree : demoDom.Tree := by
  refine ⟨?_, ?_⟩
  · intro c p
    show c ∈ (if p = 0 then [1] else if p = 1 then [2] else if p = 2 then [3] else []) ↔
      (if c = 1 then some 0 else if c = 2 then some 1 else if c = 3 then some 2 else none) =
        some p
    by_cases h0 : p = 0
    · subst h0
      by_cases c1 : c = 1
      · subst c1; simp
      · by_cases c2 : c = 2
        · subst c2; simp
        · by_cases c3 : c = 3
          · subst c3; simp
          · simp [c1, c2, c3]
    · by_cases h1 : p = 1
      · subst h1
        by_cases c1 : c = 1
        · subst c1; simp
        · by_cases c2 : c = 2
          · subst c2; simp
          · by_cases c3 : c = 3
            · subst c3; simp
            · simp [c1, c2, c3]
      · by_cases h2 : p = 2
        · subst h2
          by_cases c1 : c = 1
          · subst c1; simp
          · by_cases c2 : c = 2
            · subst c2; simp
            · by_cases c3 : c = 3
              · subst c3; simp
              · simp [c1, c2, c3]
        · have e0 : ¬ 0 = p := fun e => h0 e.symm
          have e1 : ¬ 1 = p := fun e => h1 e.symm
          have e2 : ¬ 2 = p := fun e => h2 e.symm
          by_cases c1 : c = 1
          · subst c1; simp [h0, h1, h2, e0]
          · by_cases c2 : c = 2
            · subst c2; simp [h0, h1, h2, e1]
            · by_cases c3 : c = 3
              · subst c3; simp [h0, h1, h2, e2]
              · simp [h0, h1, h2, c1, c2, c3]
  · intro p
    show (if p = 0 then [1] else if p = 1 then [2] else if p = 2 then [3] else []).Nodup
    by_cases h0 : p = 0
    · simp [h0]
    · by_cases h1 : p = 1
      · simp [h1]
      · by_cases h2 : p = 2
        · simp [h2]
        · simp [h0, h1, h2]

theorem demoPage_fresh : Fresh demoPage := by
  refine ⟨rfl, demoDom_tree, ?_, fun _ => rfl⟩
  intro n hn
  have h4 : (4 : Nat) ≤ n := hn
  have h0 : n ≠ 0 := fun e => by rw [e] at h4; exact absurd h4 (by decide)
  have h1 : n ≠ 1 := fun e => by rw [e] at h4; exact absurd h4 (by decide)
  have h2 : n ≠ 2 := fun e => by rw [e] at h4; exact absurd h4 (by decide)
  have h3 : n ≠ 3 := fun e => by rw [e] at h4; exact absurd h4 (by decide)
  exact ⟨by
      show (if n = 1 then some 0 else if n = 2 then some 1 else if n = 3 then some 2
        else none) = none
      simp [h1, h2, h3],
    by
      show (if n = 0 then [1] else if n = 1 then [2] else if n = 2 then [3] else []) = []
      simp [h0, h1, h2]⟩

theorem demoBuilt_reachable : Reachable .hidden demoBuilt :=
  Reachable.first .absent none demoPage_fresh
    (rfl : demoPage.construct .absent none = .ok (0, demoBuilt))

theorem demoShown_reachable : Reachable (.shown 2) demoShown :=
  Reachable.afterShow demoBuilt_reachable (rfl : demoBuilt.single = some demoController)
    rfl (rfl : World.show demoBuilt = .ok demoShown)

theorem demoMoved_reachable : Reachable (.shown 2) demoMoved :=
  Reachable.afterSetReference (.ident "a") demoShown_reachable
    (rfl : demoShown.setReference (.ident "a") = .ok demoMoved)

theorem demoSelf_reachable : Reachable .hidden demoSelf :=
  Reachable.afterSetReference (.node 4) demoBuilt_reachable
    (rfl : demoBuilt.setReference (.node 4) = .ok demoSelf)

theorem demoSame_reachable : Reachable .hidden demoSame :=
  Reachable.first .absent (some sameClass) demoPage_fresh
    (rfl : demoPage.construct .absent (some sameClass) = .ok (0, demoSame))

theorem demoBody_reachable : Reachable .hidden demoBody :=
  Reachable.first (.node 2) none demoPage_fresh
    (rfl : demoPage.construct (.node 2) none = .ok (0, demoBody))


/-! ## Attaching again -/

theorem Dom.climbsTo_congr {d e : Dom} {a : NodeId}
    (same : ∀ m, m ≠ a → e.parent m = d.parent m) :
    ∀ (k : Nat) (n : NodeId), d.climbsTo a k n = false → e.climbsTo a k n = false := by
  intro k
  induction k with
  | zero =>
    intro n h
    simp [Dom.climbsTo] at h
  | succ k ih =>
    intro n h
    unfold Dom.climbsTo at h ⊢
    by_cases hn : n = a
    · simp [hn] at h
    · simp only [hn, if_false] at h ⊢
      rw [same n hn]
      cases hp : d.parent n with
      | none => rfl
      | some p =>
        rw [hp] at h
        exact ih p h

theorem Dom.climbsTo_of_above {d : Dom} {a n : NodeId} (h : d.Above a n) :
    ∀ k : Nat, d.climbsTo a k n = true := by
  induction h with
  | self =>
    intro k
    cases k <;> simp [Dom.climbsTo]
  | up hp _ ih =>
    intro k
    cases k with
    | zero => rfl
    | succ k =>
      unfold Dom.climbsTo
      split
      · rfl
      · rw [hp]
        exact ih k

theorem Dom.contains_of_above {d : Dom} {a n : NodeId} (h : d.Above a n) :
    d.contains a n = true :=
  Dom.climbsTo_of_above h _

theorem showDom_contains {w : World} (b : Controller) {n r : NodeId}
    (hfree : w.dom.contains n r = false) : (showDom w b n r).contains n r = false := by
  unfold Dom.contains at hfree ⊢
  have hk : (showDom w b n r).nextNode = w.dom.nextNode := by simp [showDom]
  rw [hk]
  refine Dom.climbsTo_congr ?_ _ _ hfree
  intro m hm
  simp [showDom, Dom.adopt_parent_other _ _ hm]

theorem showDom_width (w : World) (b : Controller) (n r : NodeId) :
    (showDom w b n r).width n = some (w.dom.scroll r).x := by
  simp [showDom, Dom.setStyles]

theorem showDom_height (w : World) (b : Controller) (n r : NodeId) :
    (showDom w b n r).height n = some (w.dom.scroll r).y := by
  simp [showDom, Dom.setStyles]

theorem showDom_holds_show {w : World} (hie : w.isIE = false) (b : Controller) (n r : NodeId) :
    names b.options.showClass ⊆ (showDom w b n r).classes n := by
  unfold showDom
  rw [hie]
  exact toggled_holds_to b.options _ n .show .hide

theorem showDom_has_show {w : World} (hie : w.isIE = false) (b : Controller) (n r : NodeId)
    (hs : isName b.options.showClass = true) :
    (showDom w b n r).hasClass n b.options.showClass = true := by
  unfold showDom
  rw [hie]
  exact toggled_has_to b.options _ n .show .hide hs

theorem showDom_lacks_hide {w : World} (hie : w.isIE = false) (b : Controller) (n r : NodeId)
    (hd : b.options.hideClass ∉ names b.options.showClass) :
    (showDom w b n r).hasClass n b.options.hideClass = false := by
  unfold showDom
  rw [hie]
  exact toggled_lacks_from b.options _ n .show .hide hd

theorem showDom_morph {w : World} (hie : w.isIE = true) (b : Controller) (n r : NodeId) :
    (showDom w b n r).morph n = some b.options.showSelector := by
  unfold showDom
  rw [hie]
  exact toggled_morph b.options _ n .show .hide

theorem hideDom_classes (w : World) (b : Controller) (n : NodeId) :
    (hideDom w b n).classes = (toggled w.isIE b.options w.dom n .hide .show).classes := by
  simp [hideDom]

theorem hideDom_holds_hide {w : World} (hie : w.isIE = false) (b : Controller) (n : NodeId) :
    names b.options.hideClass ⊆ (hideDom w b n).classes n := by
  rw [hideDom_classes, hie]
  exact toggled_holds_to b.options w.dom n .hide .show

theorem hideDom_has_hide {w : World} (hie : w.isIE = false) (b : Controller) (n : NodeId)
    (hs : isName b.options.hideClass = true) :
    (hideDom w b n).hasClass n b.options.hideClass = true := by
  have h := toggled_has_to b.options w.dom n .hide .show hs
  unfold Dom.hasClass at h ⊢
  rw [hideDom_classes, hie]
  exact h

theorem hideDom_lacks_show {w : World} (hie : w.isIE = false) (b : Controller) (n : NodeId)
    (hd : b.options.showClass ∉ names b.options.hideClass) :
    (hideDom w b n).hasClass n b.options.showClass = false := by
  have h := toggled_lacks_from b.options w.dom n .hide .show hd
  unfold Dom.hasClass at h ⊢
  rw [hideDom_classes, hie]
  exact h

theorem hideDom_morph {w : World} (hie : w.isIE = true) (b : Controller) (n : NodeId) :
    (hideDom w b n).morph n = some b.options.hideSelector := by
  have h := toggled_morph b.options w.dom n .hide .show
  simpa [hideDom, hie] using h

theorem mem_names_iff_eq {s t : String} (hs : isName s = true) : t ∈ names s ↔ t = s := by
  rw [names_of_isName hs, Finset.mem_singleton]

theorem hasClass_of_holds {d : Dom} {n : NodeId} {s : String} (h : names s ⊆ d.classes n)
    {t : String} (ht : t ∈ names s) : d.hasClass n t = true := by
  simp [Dom.hasClass, isName_of_mem_names ht, h ht]


/-! ## The claims -/

/-- C1. Singleton: for every two constructor calls in a row, on any page, the
second call returns the object the first one returned, and it changes neither
the stored object (element, reference, options) nor the document nor the event
log, whatever its arguments are. -/
theorem singleton_second_construction (w : World) (e1 e2 : Arg) (o1 o2 : Option Overrides) :
    ∃ (i : ObjId) (w1 w2 : World) (b : Controller),
      w.construct e1 o1 = .ok (i, w1) ∧ w1.single = some b ∧ b.self = i ∧
      w1.construct e2 o2 = .ok (i, w2) ∧
      w2.single = some b ∧ w2.dom = w1.dom ∧ w2.fired = w1.fired ∧ w2.isIE = w1.isIE := by
  cases h : w.single with
  | none =>
    have h1 := construct_first w h e1 o1
    generalize hw1 : ({ w with
        dom := setupDom w.isIE w.dom e1 (setOptions defaults o1) w.nextObj
        nextObj := w.nextObj + 1
        single := some
          { self := w.nextObj
            options := setOptions defaults o1
            element := some (chosen w.dom e1 (setOptions defaults o1)).1
            reference :=
              (preparedDom w.isIE w.dom e1 (setOptions defaults o1)).resolve
                (setOptions defaults o1).reference } } : World)
      = w1 at h1
    have hs : w1.single = some
        { self := w.nextObj
          options := setOptions defaults o1
          element := some (chosen w.dom e1 (setOptions defaults o1)).1
          reference :=
            (preparedDom w.isIE w.dom e1 (setOptions defaults o1)).resolve
              (setOptions defaults o1).reference } := by
      rw [← hw1]
    exact ⟨_, w1, { w1 with nextObj := w1.nextObj + 1 }, _, h1, hs, rfl,
      construct_again w1 hs e2 o2, hs, rfl, rfl, rfl⟩
  | some b =>
    have hs : ({ w with nextObj := w.nextObj + 1 } : World).single = some b := h
    exact ⟨_, { w with nextObj := w.nextObj + 1 },
      { w with nextObj := w.nextObj + 1 + 1 }, b, construct_again w h e1 o1, hs, rfl,
      construct_again _ hs e2 o2, hs, rfl, rfl, rfl⟩

/-- C2, as amended. In a state with a stored controller whose reference is a
node and whose overlay the element tree accepts under that node, `show()`
returns and afterwards the overlay is a child of the reference.  On the modern
path it then carries every class name written in `options.showClass`, hence
`options.showClass` itself when that is one class name, and it does not carry
`options.hideClass` unless that is one of the names written in
`options.showClass`; the marker of the visible state holds on the legacy path
and, on the modern path, when `options.showClass` is one class name other than
`options.hideClass`. -/
theorem show_marks_and_attaches (w : World) (b : Controller) (n r : NodeId)
    (hb : w.single = some b) (hn : b.element = some n) (hr : b.reference = some r)
    (hfree : w.dom.contains n r = false) :
    ∃ w', World.show w = .ok w' ∧ w'.single = some b ∧
      (w.isIE = false → names b.options.showClass ⊆ w'.dom.classes n) ∧
      (w.isIE = false → isName b.options.showClass = true →
        w'.dom.hasClass n b.options.showClass = true) ∧
      (w.isIE = false → b.options.hideClass ∉ names b.options.showClass →
        w'.dom.hasClass n b.options.hideClass = false) ∧
      (w.isIE = true ∨
          (isName b.options.showClass = true ∧ b.options.hideClass ≠ b.options.showClass) →
        Shown w' b.options n) ∧
      w'.dom.parent n = some r ∧ n ∈ w'.dom.children r := by
  refine ⟨_, show_run w hb hn hr hfree, hb, fun hie => showDom_holds_show hie b n r,
    fun hie hs => showDom_has_show hie b n r hs, fun hie hd => showDom_lacks_hide hie b n r hd,
    ?_, showDom_parent w b n r, ?_⟩
  · intro hc
    show (if w.isIE = true then _ else _)
    cases hie : w.isIE with
    | true =>
      simp only [if_true]
      exact showDom_morph hie b n r
    | false =>
      simp only [Bool.false_eq_true, if_false]
      have hd : isName b.options.showClass = true ∧
          b.options.hideClass ≠ b.options.showClass := by
        cases hc with
        | inl h => rw [hie] at h; cases h
        | inr h => exact h
      exact ⟨showDom_has_show hie b n r hd.1,
        showDom_lacks_hide hie b n r (fun hm => hd.2 ((mem_names_iff_eq hd.1).1 hm))⟩
  · show n ∈ (showDom w b n r).children r
    rw [showDom_children]
    simp

/-- Witness C2: the sample controller, hidden, with the body as reference. -/
theorem show_marks_and_attaches_witness :
    demoBuilt.dom.contains 4 2 = false ∧
    ∃ w', World.show demoBuilt = .ok w' ∧ Shown w' defaults 4 ∧ w'.dom.parent 4 = some 2 :=
  ⟨by decide,
    match show_marks_and_attaches demoBuilt demoController 4 2 rfl rfl rfl (by decide) with
    | ⟨w', h1, _, _, _, _, h6, h7, _⟩ => ⟨w', h1, h6 (Or.inr (by decide)), h7⟩⟩

/-- Counterexample C2: with one name for both classes the overlay still carries
the hide class after `show()`; with the empty string as show class it does not
carry the show class; when the reference is the overlay itself `show()` throws;
and after `new BackDrop(document.body)` there is no reference and `show()`
throws. -/
theorem show_not_always_shown :
    (∃ w', World.show demoSame = .ok w' ∧
        w'.dom.hasClass 4 (setOptions defaults (some sameClass)).hideClass = true ∧
        ¬ Shown w' (setOptions defaults (some sameClass)) 4) ∧
    (∃ w', World.show demoBlank = .ok w' ∧
        w'.dom.hasClass 4 (setOptions defaults (some noClass)).showClass = false ∧
        ¬ Shown w' (setOptions defaults (some noClass)) 4) ∧
    (demoSelf.getReference = some 4 ∧ World.show demoSelf = .error .hierarchyRequest) ∧
    (demoBody.getReference = none ∧ World.show demoBody = .error .typeError) :=
  ⟨⟨settle (World.show demoSame) demoSame, rfl, by decide, by decide⟩,
    ⟨settle (World.show demoBlank) demoBlank, rfl, by decide, by decide⟩,
    ⟨rfl, rfl⟩, ⟨rfl, rfl⟩⟩

/-- C3, as amended. In a state with a stored controller `hide()` returns and
afterwards the overlay has no parent (and, the document being a forest, is in
no child list).  On the modern path it then carries every class name written in
`options.hideClass`, hence `options.hideClass` itself when that is one class
name, and it does not carry `options.showClass` unless that is one of the names
written in `options.hideClass`; the marker of the hidden state holds on the
legacy path and, on the modern path, when `options.hideClass` is one class name
other than `options.showClass`. -/
theorem hide_marks_and_detaches (w : World) (b : Controller) (n : NodeId)
    (hb : w.single = some b) (hn : b.element = some n) :
    ∃ w', w.hide = .ok w' ∧ w'.single = some b ∧
      (w.isIE = false → names b.options.hideClass ⊆ w'.dom.classes n) ∧
      (w.isIE = false → isName b.options.hideClass = true →
        w'.dom.hasClass n b.options.hideClass = true) ∧
      (w.isIE = false → b.options.showClass ∉ names b.options.hideClass →
        w'.dom.hasClass n b.options.showClass = false) ∧
      (w.isIE = true ∨
          (isName b.options.hideClass = true ∧ b.options.showClass ≠ b.options.hideClass) →
        Hidden w' b.options n) ∧
      w'.dom.parent n = none ∧ (w.dom.Tree → ∀ p, n ∉ w'.dom.children p) := by
  refine ⟨_, hide_run w hb hn, hb, fun hie => hideDom_holds_hide hie b n,
    fun hie hs => hideDom_has_hide hie b n hs, fun hie hd => hideDom_lacks_show hie b n hd,
    ?_, hideDom_parent w b n, ?_⟩
  · intro hc
    show (if w.isIE = true then _ else _)
    cases hie : w.isIE with
    | true =>
      simp only [if_true]
      exact hideDom_morph hie b n
    | false =>
      simp only [Bool.false_eq_true, if_false]
      have hd : isName b.options.hideClass = true ∧
          b.options.showClass ≠ b.options.hideClass := by
        cases hc with
        | inl h => rw [hie] at h; cases h
        | inr h => exact h
      exact ⟨hideDom_has_hide hie b n hd.1,
        hideDom_lacks_show hie b n (fun hm => hd.2 ((mem_names_iff_eq hd.1).1 hm))⟩
  · intro t p
    exact Dom.not_mem_children_of_detached (hideDom_tree t b n) (hideDom_parent w b n) p

/-- Witness C3: the sample controller while shown. -/
theorem hide_marks_and_detaches_witness :
    ∃ w', demoShown.hide = .ok w' ∧ Hidden w' defaults 4 ∧ w'.dom.parent 4 = none :=
  match hide_marks_and_detaches demoShown demoController 4 rfl rfl with
  | ⟨w', h1, _, _, _, _, h6, h7, _⟩ => ⟨w', h1, h6 (Or.inr (by decide)), h7⟩

/-- Counterexample C3: with one name for both classes the overlay carries the
show class after `hide()`; with the empty string as hide class it does not
carry the hide class. -/
theorem hide_not_always_hidden :
    (∃ w', demoSame.hide = .ok w' ∧
      w'.dom.hasClass 4 (setOptions defaults (some sameClass)).showClass = true ∧
      ¬ Hidden w' (setOptions defaults (some sameClass)) 4) ∧
    (∃ w', demoBlank.hide = .ok w' ∧
      w'.dom.hasClass 4 (setOptions defaults (some noClass)).hideClass = false ∧
      ¬ Hidden w' (setOptions defaults (some noClass)) 4) :=
  ⟨⟨settle demoSame.hide demoSame, rfl, by decide, by decide⟩,
    ⟨settle demoBlank.hide demoBlank, rfl, by decide, by decide⟩⟩


/-- C4, as amended. In every state reached after construction, with the scroll
sizes left alone between the calls.  When the reference is a node and the
element tree accepts the overlay under it, `show(); show()` returns both times
and leaves the document and the controller exactly as one `show()` does, the
overlay being a child of the reference and occurring once in its child list,
and each of the two calls adds one `show` entry to the event log.  When the
tree refuses, as it does whenever the overlay is the reference or an ancestor
of it, `show()` throws; so it does when there is no reference.
`hide(); hide()` always returns both times and leaves the document and the
controller exactly as one `hide()` does, the overlay having no parent, and
each of the two calls adds one `hide` entry to the event log. -/
theorem twice_is_once {ph : Phase} {w : World} (h : Reachable ph w) :
    ∃ b n, w.single = some b ∧ b.element = some n ∧
      (∀ r, b.reference = some r →
        (w.dom.contains n r = false →
          ∃ w1 w2, World.show w = .ok w1 ∧ World.show w1 = .ok w2 ∧
            w2.dom = w1.dom ∧ w2.single = w1.single ∧
            w1.dom.parent n = some r ∧ (w1.dom.children r).count n = 1 ∧
            (w2.dom.children r).count n = 1 ∧
            w1.fired = w.fired ++ [{ name := .show, dom := w1.dom, receiver := b }] ∧
            w2.fired = w1.fired ++ [{ name := .show, dom := w2.dom, receiver := b }]) ∧
        (w.dom.contains n r = true → World.show w = .error .hierarchyRequest) ∧
        (w.dom.Above n r → World.show w = .error .hierarchyRequest)) ∧
      (b.reference = none → World.show w = .error .typeError) ∧
      (∃ h1 h2, w.hide = .ok h1 ∧ h1.hide = .ok h2 ∧
          h2.dom = h1.dom ∧ h2.single = h1.single ∧ h1.dom.parent n = none ∧
          h1.fired = w.fired ++ [{ name := .hide, dom := h1.dom, receiver := b }] ∧
          h2.fired = h1.fired ++ [{ name := .hide, dom := h2.dom, receiver := b }]) := by
  obtain ⟨b, n, v⟩ := reachable_inv h
  refine ⟨b, n, v.single, v.element, ?_, fun hr => show_null w v.single hr, ?_⟩
  · intro r hr
    refine ⟨?_, show_refused w v.single v.element hr,
      fun ha => show_refused w v.single v.element hr (Dom.contains_of_above ha)⟩
    intro hfree
    have h1 := show_run w v.single v.element hr hfree
    generalize hw1 : ({ w with
        dom := showDom w b n r
        fired := w.fired ++ [{ name := .show, dom := showDom w b n r, receiver := b }] } : World)
      = w1 at h1
    have hd : w1.dom = showDom w b n r := by rw [← hw1]
    have hie : w1.isIE = w.isIE := by rw [← hw1]
    have hs : w1.single = some b := by rw [← hw1]; exact v.single
    have hf : w1.fired =
        w.fired ++ [{ name := .show, dom := w1.dom, receiver := b }] := by rw [← hw1]
    have hfree1 : w1.dom.contains n r = false := by
      rw [hd]; exact showDom_contains b hfree
    have h2 := show_run w1 hs v.element hr hfree1
    have hcount : ((showDom w b n r).children r).count n = 1 := by
      apply List.count_eq_one_of_mem ((showDom_tree v.tree b n r).once r)
      rw [showDom_children]
      simp
    refine ⟨w1, _, h1, h2, ?_, rfl, ?_, ?_, ?_, hf, rfl⟩
    · show showDom w1 b n r = w1.dom
      rw [showDom_idem v.tree b n r w1 hie hd, hd]
    · rw [hd]; exact showDom_parent w b n r
    · rw [hd]; exact hcount
    · show ((showDom w1 b n r).children r).count n = 1
      rw [showDom_idem v.tree b n r w1 hie hd]
      exact hcount
  · have h1 := hide_run w v.single v.element
    generalize hw1 : ({ w with
        dom := hideDom w b n
        fired := w.fired ++ [{ name := .hide, dom := hideDom w b n, receiver := b }] } : World)
      = w1 at h1
    have hd : w1.dom = hideDom w b n := by rw [← hw1]
    have hie : w1.isIE = w.isIE := by rw [← hw1]
    have hs : w1.single = some b := by rw [← hw1]; exact v.single
    have hf : w1.fired =
        w.fired ++ [{ name := .hide, dom := w1.dom, receiver := b }] := by rw [← hw1]
    have h2 := hide_run w1 hs v.element
    refine ⟨w1, _, h1, h2, ?_, rfl, ?_, hf, rfl⟩
    · show hideDom w1 b n = w1.dom
      rw [hideDom_idem w b n w1 hie hd, hd]
    · rw [hd]; exact hideDom_parent w b n

/-- Witness C4: the sample controller right after construction. -/
theorem twice_is_once_witness :
    (∃ w1 w2, World.show demoBuilt = .ok w1 ∧ World.show w1 = .ok w2 ∧ w2.dom = w1.dom ∧
      (w2.dom.children 2).count 4 = 1) ∧
    ∃ h1 h2, demoBuilt.hide = .ok h1 ∧ h1.hide = .ok h2 ∧ h2.dom = h1.dom := by
  obtain ⟨b, n, hb, hn, hshow, _, h1, h2, e1, e2, e3, _⟩ := twice_is_once demoBuilt_reachable
  have eb : b = demoController := Option.some.inj (hb.symm.trans rfl)
  subst eb
  have en : 4 = n := Option.some.inj hn
  subst en
  obtain ⟨w1, w2, s1, s2, s3, _, _, _, s7, _⟩ := (hshow 2 rfl).1 (by decide)
  exact ⟨⟨w1, w2, s1, s2, s3, s7⟩, h1, h2, e1, e2, e3⟩

/-- Counterexample C4: after `setReference(this.element)` the state is a
reachable one, and `show()` throws there. -/
theorem show_can_throw :
    Reachable .hidden demoSelf ∧
    demoSelf.single =
      some { self := 0, options := defaults, element := some 4, reference := some 4 } ∧
    World.show demoSelf = .error .hierarchyRequest :=
  ⟨demoSelf_reachable, rfl, rfl⟩

/-- C5, as amended. In a state with a stored controller: for every node `a`,
`setReference(a); resize()` returns and leaves the overlay with the scroll
width of `a` as width and the scroll height of `a` as height; `resize()` alone
does so with the current reference whenever that is a node; and `show()` does
so too whenever the reference is a node under which the element tree accepts
the overlay. -/
theorem resize_uses_reference_size (w : World) (b : Controller) (n : NodeId)
    (hb : w.single = some b) (hn : b.element = some n) :
    (∀ a : NodeId, ∃ w1 w2, w.setReference (.node a) = .ok w1 ∧ w1.resize = .ok w2 ∧
        w2.getReference = some a ∧
        w2.dom.width n = some (w.dom.scroll a).x ∧ w2.dom.height n = some (w.dom.scroll a).y) ∧
    (∀ r, b.reference = some r → ∃ w', w.resize = .ok w' ∧
        w'.dom.width n = some (w.dom.scroll r).x ∧ w'.dom.height n = some (w.dom.scroll r).y) ∧
    (∀ r, b.reference = some r → w.dom.contains n r = false →
      ∃ w', World.show w = .ok w' ∧
        w'.dom.width n = some (w.dom.scroll r).x ∧ w'.dom.height n = some (w.dom.scroll r).y) := by
  refine ⟨?_, ?_, ?_⟩
  · intro a
    have h1 := setReference_run w hb (.node a)
    have hs : ({ w with single := some { b with reference := w.dom.resolve (.node a) } }
        : World).single = some { b with reference := some a } := rfl
    refine ⟨_, _, h1, resize_run _ hs hn rfl, ?_, ?_, ?_⟩
    · rfl
    · simp [Dom.setStyles]
    · simp [Dom.setStyles]
  · intro r hr
    refine ⟨_, resize_run w hb hn hr, ?_, ?_⟩
    · simp [Dom.setStyles]
    · simp [Dom.setStyles]
  · intro r hr hfree
    exact ⟨_, show_run w hb hn hr hfree, showDom_width w b n r, showDom_height w b n r⟩

/-- Witness C5: the sample controller is pointed at the block `a`. -/
theorem resize_uses_reference_size_witness :
    ∃ w1 w2, demoBuilt.setReference (.node 3) = .ok w1 ∧ w1.resize = .ok w2 ∧
      w2.dom.width 4 = some 300 ∧ w2.dom.height 4 = some 200 :=
  match (resize_uses_reference_size demoBuilt demoController 4 rfl rfl).1 3 with
  | ⟨w1, w2, h1, h2, _, h4, h5⟩ => ⟨w1, w2, h1, h2, h4, h5⟩

/-- Counterexample C5: with the overlay as its own reference `show()` throws
before it resizes, so the overlay keeps having no width and no height; and
after `new BackDrop(document.body)` there is no reference, so `resize()`
throws and sets nothing. -/
theorem show_can_leave_size_unset :
    (demoSelf.getReference = some 4 ∧ World.show demoSelf = .error .hierarchyRequest ∧
      demoSelf.dom.width 4 = none ∧ demoSelf.dom.height 4 = none) ∧
    (demoBody.getReference = none ∧ demoBody.resize = .error .typeError ∧
      demoBody.dom.width 2 = none ∧ demoBody.dom.height 2 = none) :=
  ⟨⟨rfl, rfl, rfl, rfl⟩, ⟨rfl, rfl, rfl, rfl⟩⟩

/-- What `setReference(x)` stores, in a state with a stored controller: the node
`x` resolves to when it resolves to one, and otherwise the body of the
document, which is null once the body element is out of the document. -/
theorem setReference_stores (w : World) (b : Controller) (x : Arg) (hb : w.single = some b) :
    ∃ w', w.setReference x = .ok w' ∧ w'.dom = w.dom ∧
      (∀ m, w.dom.documentId x = some m → w'.getReference = some m) ∧
      (w.dom.documentId x = none → w'.getReference = w.dom.documentBody) := by
  refine ⟨_, setReference_run w hb x, rfl, ?_, ?_⟩
  · intro m hm
    exact resolve_found w.dom x hm
  · intro hm
    exact resolve_fallback w.dom x hm

/-- C6, the code at the failing input. `new BackDrop(document.body)` on the
sample page returns; the overlay is the body, which `setup` takes out of the
document before it looks the reference up, so `document.body` is null at that
moment and the reference stored is null: the state is a reachable one in which
`getReference()` gives null and `resize()` and `show()` throw. -/
theorem reference_null_after_body :
    demoPage.dom.documentBody = some 2 ∧
    demoPage.construct (.node 2) none = .ok (0, demoBody) ∧
    Reachable .hidden demoBody ∧
    demoBody.single =
      some { self := 0, options := defaults, element := some 2, reference := none } ∧
    demoBody.dom.documentBody = none ∧
    demoBody.getReference = none ∧
    demoBody.resize = .error .typeError ∧
    World.show demoBody = .error .typeError :=
  ⟨rfl, rfl, demoBody_reachable, rfl, rfl, rfl, rfl, rfl⟩


/-- C7. In every state reached after construction, whatever its phase and so in
particular in every SHOWN one, the listeners of the overlay for a click are
exactly `hide` bound to the stored controller; one click on the overlay does
what `hide()` does: it returns, leads to a state of phase HIDDEN in which the
overlay has no parent and is in no child list, and adds exactly one entry,
named `hide`, to the event log.  On the modern path the overlay then carries
every class name written in `options.hideClass`, and the marker of the hidden
state holds on the legacy path and whenever `options.hideClass` is one class
name other than `options.showClass`. -/
theorem click_hides {ph : Phase} {w : World} (h : Reachable ph w) :
    ∃ b n, w.single = some b ∧ b.element = some n ∧
      w.dom.click n = [.boundHide b.self] ∧ w.clickOn n = w.hide ∧
      ∃ w', w.clickOn n = .ok w' ∧ Reachable .hidden w' ∧ w'.single = some b ∧
        w'.dom.parent n = none ∧ (∀ p, n ∉ w'.dom.children p) ∧
        w'.fired = w.fired ++ [{ name := .hide, dom := w'.dom, receiver := b }] ∧
        (w.isIE = false → names b.options.hideClass ⊆ w'.dom.classes n) ∧
        (w.isIE = true ∨
            (isName b.options.hideClass = true ∧ b.options.showClass ≠ b.options.hideClass) →
          Hidden w' b.options n) := by
  obtain ⟨b, n, v⟩ := reachable_inv h
  have hc : w.clickOn n = _ := (click_run w v.single v.listeners).trans (hide_run w v.single v.element)
  refine ⟨b, n, v.single, v.element, v.listeners, click_run w v.single v.listeners, _, hc,
    Reachable.afterClick h v.single v.element hc, v.single, hideDom_parent w b n, ?_, rfl,
    fun hie => hideDom_holds_hide hie b n, ?_⟩
  · intro p
    exact Dom.not_mem_children_of_detached (hideDom_tree v.tree b n) (hideDom_parent w b n) p
  · intro hx
    show (if w.isIE = true then _ else _)
    cases hie : w.isIE with
    | true =>
      simp only [if_true]
      exact hideDom_morph hie b n
    | false =>
      simp only [Bool.false_eq_true, if_false]
      have hd : isName b.options.hideClass = true ∧
          b.options.showClass ≠ b.options.hideClass := by
        cases hx with
        | inl h => rw [hie] at h; cases h
        | inr h => exact h
      exact ⟨hideDom_has_hide hie b n hd.1,
        hideDom_lacks_show hie b n (fun hm => hd.2 ((mem_names_iff_eq hd.1).1 hm))⟩

/-- Witness C7: a click on the overlay of the sample controller while shown. -/
theorem click_hides_witness :
    ∃ b n, demoShown.single = some b ∧ b.element = some n ∧
      demoShown.dom.click n = [.boundHide b.self] ∧
      ∃ w', demoShown.clickOn n = .ok w' ∧ w'.dom.parent n = none ∧
        w'.fired.length = demoShown.fired.length + 1 :=
  match click_hides demoShown_reachable with
  | ⟨b, n, h1, h2, h3, _, w', h5, _, _, h8, _, h10, _⟩ =>
    ⟨b, n, h1, h2, h3, w', h5, h8, by rw [h10]; simp⟩

/-- C8, as amended. In a state with a stored controller: every `show()` made
while the reference is a node under which the element tree accepts the overlay
returns and adds exactly one entry, named `show`, to the event log, and the
document kept in that entry is the document the call leaves behind, in which
the overlay is a child of the reference, has the scroll size of the reference,
and carries the show marker (every class name written in `options.showClass`,
or the show selector as morph target); every `hide()` returns and adds exactly
one entry, named `hide`, whose document is the one the call leaves behind, in
which the overlay carries the hide marker and has no parent. -/
theorem emission_comes_last (w : World) (b : Controller) (n : NodeId)
    (hb : w.single = some b) (hn : b.element = some n) :
    (∀ r, b.reference = some r → w.dom.contains n r = false →
      ∃ w', World.show w = .ok w' ∧
        w'.fired = w.fired ++ [{ name := .show, dom := w'.dom, receiver := b }] ∧
        w'.dom.parent n = some r ∧ n ∈ w'.dom.children r ∧
        w'.dom.width n = some (w.dom.scroll r).x ∧ w'.dom.height n = some (w.dom.scroll r).y ∧
        (w.isIE = false → names b.options.showClass ⊆ w'.dom.classes n) ∧
        (w.isIE = false → isName b.options.showClass = true →
          w'.dom.hasClass n b.options.showClass = true) ∧
        (w.isIE = true → w'.dom.morph n = some b.options.showSelector)) ∧
    (∃ w', w.hide = .ok w' ∧
        w'.fired = w.fired ++ [{ name := .hide, dom := w'.dom, receiver := b }] ∧
        w'.dom.parent n = none ∧
        (w.isIE = false → names b.options.hideClass ⊆ w'.dom.classes n) ∧
        (w.isIE = false → isName b.options.hideClass = true →
          w'.dom.hasClass n b.options.hideClass = true) ∧
        (w.isIE = true → w'.dom.morph n = some b.options.hideSelector)) := by
  refine ⟨?_, ?_⟩
  · intro r hr hfree
    refine ⟨_, show_run w hb hn hr hfree, rfl, showDom_parent w b n r, ?_, showDom_width w b n r,
      showDom_height w b n r, fun hie => showDom_holds_show hie b n r,
      fun hie hs => showDom_has_show hie b n r hs, fun hie => showDom_morph hie b n r⟩
    show n ∈ (showDom w b n r).children r
    rw [showDom_children]
    simp
  · exact ⟨_, hide_run w hb hn, rfl, hideDom_parent w b n, fun hie => hideDom_holds_hide hie b n,
      fun hie hs => hideDom_has_hide hie b n hs, fun hie => hideDom_morph hie b n⟩

/-- Witness C8: `show()` of the sample controller. -/
theorem emission_comes_last_witness :
    ∃ w', World.show demoBuilt = .ok w' ∧
      w'.fired.length = 1 ∧ w'.dom.width 4 = some 800 ∧ w'.dom.height 4 = some 600 ∧
      w'.dom.hasClass 4 "visible" = true :=
  match (emission_comes_last demoBuilt demoController 4 rfl rfl).1 2 rfl (by decide) with
  | ⟨w', h1, h2, _, _, h5, h6, _, h8, _⟩ =>
    ⟨w', h1, by rw [h2]; rfl, h5, h6, h8 rfl (by decide)⟩

/-- Counterexample C8: a call of `show()` in a reachable state that throws, so
that no `show` entry is added to the (empty) event log. -/
theorem show_can_emit_nothing :
    Reachable .hidden demoSelf ∧ demoSelf.fired.length = 0 ∧
    World.show demoSelf = .error .hierarchyRequest :=
  ⟨demoSelf_reachable, rfl, rfl⟩

/-- C9, as amended. In every state reached after construction, tagged with the
phase of the specification's state machine: when the phase is HIDDEN the
overlay has no parent and is in no child list; when the phase is SHOWN the
overlay is a child of the node that was the reference when `show()` was last
called, occurs once in its child list, and carries the show marker (every
class name written in `options.showClass`, or the show selector as morph
target). -/
theorem phase_and_attachment {ph : Phase} {w : World} (h : Reachable ph w) :
    ∃ b n, w.single = some b ∧ b.element = some n ∧
      (ph = .hidden → w.dom.parent n = none ∧ ∀ p, n ∉ w.dom.children p) ∧
      (∀ u, ph = .shown u →
        w.dom.parent n = some u ∧ (w.dom.children u).count n = 1 ∧
        (w.isIE = false → names b.options.showClass ⊆ w.dom.classes n) ∧
        (w.isIE = false → isName b.options.showClass = true →
          w.dom.hasClass n b.options.showClass = true) ∧
        (w.isIE = true → w.dom.morph n = some b.options.showSelector)) := by
  obtain ⟨b, n, v⟩ := reachable_inv h
  refine ⟨b, n, v.single, v.element, ?_, ?_⟩
  · intro hp
    exact ⟨v.hidden hp, Dom.not_mem_children_of_detached v.tree (v.hidden hp)⟩
  · intro u hu
    have hs := v.shown u hu
    have hsub : w.isIE = false → names b.options.showClass ⊆ w.dom.classes n := by
      intro hie
      have h2 := hs.2
      rw [hie] at h2
      simpa using h2
    refine ⟨hs.1, ?_, hsub, ?_, ?_⟩
    · exact List.count_eq_one_of_mem (v.tree.once u) ((v.tree.link n u).2 hs.1)
    · intro hie hname
      exact hasClass_of_holds (hsub hie)
        (by rw [names_of_isName hname]; exact Finset.mem_singleton_self _)
    · intro hie
      have h2 := hs.2
      rw [hie] at h2
      simpa using h2

/-- Witness C9: the sample controller after `show()` and `setReference('a')`. -/
theorem phase_and_attachment_witness :
    ∃ b n, demoMoved.single = some b ∧ b.element = some n ∧ demoMoved.dom.parent n = some 2 :=
  match phase_and_attachment demoMoved_reachable with
  | ⟨b, n, h1, h2, _, h4⟩ => ⟨b, n, h1, h2, (h4 2 rfl).1⟩

/-- Counterexample C9: after `show()` and then `setReference('a')` the visible
marker holds and the overlay is still a child of the body, while the current
reference is the block `a`, which has no child. -/
theorem shown_under_old_reference :
    Reachable (.shown 2) demoMoved ∧ Shown demoMoved defaults 4 ∧
    demoMoved.getReference = some 3 ∧ demoMoved.dom.parent 4 = some 2 ∧
    demoMoved.dom.children 3 = [] :=
  ⟨demoMoved_reachable, by decide, rfl, rfl, rfl⟩

/-- C10, as amended. A first construction on a fresh page returns; the overlay
is the node the element argument resolves to, or else a new node whose class
names are those written as `class` in `options.elementOpts.attributes`;
afterwards it has no parent and is in no child list, it does not carry
`options.loadClass`, its class names are exactly the ones it had (or was
created with) without those written in `options.loadClass` (no hide class is
added), and on the legacy path its morph target is the hide selector. -/
theorem first_construction_state (w : World) (f : Fresh w) (e : Arg) (o : Option Overrides) :
    ∃ i w' b n, w.construct e o = .ok (i, w') ∧ w'.single = some b ∧ b.self = i ∧
      b.options = setOptions defaults o ∧ b.element = some n ∧
      (∀ m, w.dom.documentId e = some m →
        n = m ∧ w'.dom.classes n = w.dom.classes m \ names b.options.loadClass) ∧
      (w.dom.documentId e = none →
        n = w.dom.nextNode ∧
        w'.dom.classes n =
          names ((b.options.elementOpts.attributes.lookup "class").getD "") \
            names b.options.loadClass) ∧
      w'.dom.parent n = none ∧ (∀ p, n ∉ w'.dom.children p) ∧
      w'.dom.hasClass n b.options.loadClass = false ∧
      (w.isIE = true → Hidden w' b.options n) := by
  refine ⟨_, _, _, _, construct_first w f.single e o, rfl, rfl, rfl, rfl, ?_, ?_,
    setupDom_parent _ _ _ _ _, ?_, setupDom_lacks_load _ _ _ _ _, ?_⟩
  · intro m hm
    have hc : chosen w.dom e (setOptions defaults o) = (m, w.dom) := by
      unfold chosen; rw [hm]
    refine ⟨by rw [hc], ?_⟩
    show (setupDom w.isIE w.dom e (setOptions defaults o) w.nextObj).classes _ = _
    rw [setupDom_classes, hc]
  · intro hm
    have hc : chosen w.dom e (setOptions defaults o) =
        w.dom.newElement (setOptions defaults o).elementOpts.tag
          (setOptions defaults o).elementOpts.attributes := by
      unfold chosen; rw [hm]
    refine ⟨by rw [hc]; rfl, ?_⟩
    show (setupDom w.isIE w.dom e (setOptions defaults o) w.nextObj).classes _ = _
    rw [setupDom_classes, hc]
    simp [Dom.newElement]
  · exact Dom.not_mem_children_of_detached (setupDom_tree _ f.tree f.blank _ _ _)
      (setupDom_parent _ _ _ _ _)
  · intro hie
    show (if w.isIE = true then _ else _)
    rw [hie]
    simp only [if_true]
    exact setupDom_morph _ _ _ _

/-- Witness C10: construction on the sample page with a class of its own for
the created overlay. -/
theorem first_construction_state_witness :
    ∃ i w' b n, demoPage.construct .absent (some bornHidden) = .ok (i, w') ∧
      w'.single = some b ∧ b.element = some n ∧ n = 4 ∧ w'.dom.parent n = none ∧
      w'.dom.classes n = {"hidden"} :=
  match first_construction_state demoPage demoPage_fresh .absent (some bornHidden) with
  | ⟨i, w', b, n, h1, h2, _, h4, h5, _, h7, h8, _⟩ =>
    ⟨i, w', b, n, h1, h2, h5, (h7 rfl).1, h8, by rw [(h7 rfl).2, h4]; decide⟩

/-- Counterexample C10: on a modern browser the overlay created by
`new BackDrop()` carries no hide class, so the hidden marker does not hold. -/
theorem first_construction_unmarked :
    demoPage.isIE = false ∧ demoPage.construct .absent none = .ok (0, demoBuilt) ∧
    demoBuilt.single = some demoController ∧
    demoBuilt.dom.hasClass 4 defaults.hideClass = false ∧ ¬ Hidden demoBuilt defaults 4 :=
  ⟨rfl, rfl, rfl, by decide, by decide⟩

end BackDrop
